import Mathlib

/-!
RTS-Scheduler: EDF scheduling with DVFS and DPM.

A shallow embedding of the simulator's core (scheduler.c, power_manager.c and the
driver loop of main.c) together with theorems about it.

Conventions of the embedding.

* `TickType_t` and `unsigned int` are 32-bit: a value is a natural number below `2 ^ 32`
  and every arithmetic result is reduced modulo `2 ^ 32` (`addU32`, `subU32`).
* `float` is IEEE-754 binary32 with round-to-nearest-even, every operation rounded to
  binary32.  A finite non-negative value `x` is represented exactly by the natural number
  `x * 2 ^ 149` (every finite binary32 value is a multiple of `2 ^ (-149)`), so that the
  order and equality of values are those of the representing numbers.  The program only
  produces non-negative values, all far below the overflow threshold `2 ^ 128`; the two
  exceptional results of a division by zero are kept apart in `FloatResult`.
* A `Task *` into the task set is an index into the list of tasks.
-/

set_option maxRecDepth 8192

namespace RTS

/-! ## Machine integers -/

/-- The constant portMAX_DELAY (FreeRTOS.h), the largest TickType_t value. -/
def portMAX_DELAY : Nat := 4294967295

/-- The number of TickType_t values, 2 ^ 32. -/
def tickModulus : Nat := 4294967296

/-- Unsigned 32-bit addition. -/
def addU32 (a b : Nat) : Nat := (a + b) % tickModulus

/-- Unsigned 32-bit subtraction. -/
def subU32 (a b : Nat) : Nat := (a % tickModulus + tickModulus - b % tickModulus) % tickModulus

/-! ## Single-precision values -/

/-- A finite non-negative binary32 or binary64 value x, stored as x * 2 ^ 149. -/
abbrev CFloat := Nat

/-- The representation of 1.0. -/
def floatOne : CFloat := 2 ^ 149

/-- Nearest integer to num / den, ties to the even integer. -/
def roundHalfEven (num den : Nat) : Nat :=
  let q := num / den
  let r := num % den
  if 2 * r < den then q
  else if den < 2 * r then q + 1
  else if q % 2 = 0 then q else q + 1

/-- The number of halvings that bring q below 2 ^ 24, found in at most fuel steps. -/
def excessBits : Nat → Nat → Nat
  | 0, _ => 0
  | fuel + 1, q => if q < 16777216 then 0 else excessBits fuel (q / 2) + 1

/-- Rounding of the exact value num / den (counted in units of 2 ^ (-149)) to binary32:
24 significant bits are kept, and nothing finer than one unit. -/
def roundF32 (num den : Nat) : CFloat :=
  let s := excessBits (num / den) (num / den)
  roundHalfEven num (den * 2 ^ s) * 2 ^ s

/-- Conversion of an unsigned 32-bit integer to float. -/
def ofU32 (n : Nat) : CFloat := roundF32 (n * floatOne) 1

/-- Conversion of a float to an unsigned 32-bit integer: truncation toward zero.  For a
value of 2 ^ 32 or more C leaves the result undefined; it is reduced modulo 2 ^ 32 here,
as the x86-64 conversion does. -/
def toU32 (x : CFloat) : Nat := (x / floatOne) % tickModulus

/-- Single-precision subtraction x - y for y not above x. -/
def fsub (x y : CFloat) : CFloat := roundF32 (x - y) 1

/-- Single-precision addition. -/
def fadd (x y : CFloat) : CFloat := roundF32 (x + y) 1

/-- Single-precision multiplication. -/
def fmul (x y : CFloat) : CFloat := roundF32 (x * y) floatOne

/-- The result of a single-precision division of non-negative operands. -/
inductive FloatResult where
  | fin (x : CFloat)
  | inf
  | nan
deriving DecidableEq, Repr

/-- Single-precision division x / y of non-negative operands; a zero divisor gives
NaN for 0 / 0 and +infinity otherwise. -/
def fdiv (x y : CFloat) : FloatResult :=
  if y = 0 then (if x = 0 then FloatResult.nan else FloatResult.inf)
  else FloatResult.fin (roundF32 (x * floatOne) y)

/-- The comparison level >= required of a finite level with a division result. -/
def geResult (level : CFloat) (required : FloatResult) : Bool :=
  match required with
  | FloatResult.fin x => decide (x ≤ level)
  | FloatResult.inf => false
  | FloatResult.nan => false

/-- The float nearest to 0.4, 0x3ECCCCCD. -/
def f04 : CFloat := 13421773 * 2 ^ 124

/-- The float nearest to 0.6, 0x3F19999A. -/
def f06 : CFloat := 10066330 * 2 ^ 125

/-- The float nearest to 0.8, 0x3F4CCCCD. -/
def f08 : CFloat := 13421773 * 2 ^ 125

/-- The float nearest to 0.05, 0x3D4CCCCD. -/
def f005 : CFloat := 13421773 * 2 ^ 121

/-- The double nearest to 0.4. -/
def d04 : CFloat := 3602879701896397 * 2 ^ 96

/-- The double nearest to 0.6. -/
def d06 : CFloat := 5404319552844595 * 2 ^ 96

/-- The double nearest to 0.8. -/
def d08 : CFloat := 3602879701896397 * 2 ^ 97

/-! ## Data model (task_set.h, power_manager.h, scheduler.h) -/

/-- The constant MAX_INSTANCES of task_set.h. -/
def MAX_INSTANCES : Int := 100

/-- The constant DPM_THRESHOLD of power_manager.h. -/
def DPM_THRESHOLD : Nat := 20

/-- The constant DVFS_LEVELS of power_manager.h. -/
def DVFS_LEVELS : Nat := 4

/-- Task states. -/
inductive TaskState where
  | TASK_IDLE
  | TASK_READY
  | TASK_RUNNING
deriving DecidableEq, Repr

/-- The struct Task.  The array actualExecutionTime is a list read with default 0. -/
structure Task where
  id : Int
  period : Nat
  relativeDeadline : Nat
  worstCaseExecTime : Nat
  state : TaskState
  nextArrivalTime : Nat
  absoluteDeadline : Nat
  remainingExecutionTime : Nat
  arrivalTime : Nat
  completionTime : Nat
  actualExecutionTime : List Nat
  currentInstance : Int
  instancesCompleted : Nat
  deadlineMisses : Nat
  totalResponseTime : Nat
deriving DecidableEq, Repr

/-- The struct TaskSet: the entries tasks[0], ..., tasks[count - 1]. -/
abbrev TaskSet := List Task

/-- The struct PowerState. -/
structure PowerState where
  frequencyLevel : CFloat
  isDPMActive : Bool
deriving DecidableEq, Repr

/-- The enum PowerDecisionType. -/
inductive PowerDecisionType where
  | POWER_NO_CHANGE
  | POWER_DVFS_CHANGE
  | POWER_DPM_ON
  | POWER_DPM_OFF
deriving DecidableEq, Repr

/-- The struct PowerDecision. -/
structure PowerDecision where
  type : PowerDecisionType
  newFrequencyLevel : CFloat
deriving DecidableEq, Repr

/-- The struct SchedulerStats; timeAtFrequency is an array of four counters. -/
structure SchedulerStats where
  totalExecutionTime : Nat
  energyConsumption : CFloat
  dvfsTransitions : Nat
  dpmTransitions : Nat
  timeAtFrequency0 : Nat
  timeAtFrequency1 : Nat
  timeAtFrequency2 : Nat
  timeAtFrequency3 : Nat
  timeInPowerDown : Nat
deriving DecidableEq, Repr

/-- The element actualExecutionTime[currentInstance] of a task; currentInstance starts
at 0 and completeTask keeps it within the array. -/
def Task.currentActual (task : Task) : Nat :=
  task.actualExecutionTime.getD task.currentInstance.toNat 0

/-- The test state == TASK_READY || state == TASK_RUNNING. -/
def Task.isActive (task : Task) : Bool :=
  task.state = TaskState.TASK_READY || task.state = TaskState.TASK_RUNNING

/-- Replace the entry at index i of a list by its image under f. -/
def modifyAt {α : Type} (f : α → α) : Nat → List α → List α
  | _, [] => []
  | 0, x :: xs => f x :: xs
  | i + 1, x :: xs => x :: modifyAt f i xs

/-! ## scheduler.c -/

/-- The body of the loop of checkForTaskArrivals, for one task. -/
def arriveTask (currentTime : Nat) (task : Task) : Task :=
  if task.nextArrivalTime ≤ currentTime ∧ task.state = TaskState.TASK_IDLE then
    { task with
      state := TaskState.TASK_READY
      remainingExecutionTime := task.currentActual
      absoluteDeadline := addU32 currentTime task.relativeDeadline
      arrivalTime := currentTime
      nextArrivalTime := addU32 task.nextArrivalTime task.period }
  else task

/-- The function checkForTaskArrivals. -/
def checkForTaskArrivals (taskSet : TaskSet) (currentTime : Nat) : TaskSet :=
  taskSet.map (arriveTask currentTime)

/-- The body of the loop of checkForTaskCompletions, for one task. -/
def completeTask (currentTime : Nat) (task : Task) : Task :=
  if task.state = TaskState.TASK_RUNNING ∧ task.remainingExecutionTime ≤ 0 then
    { task with
      state := TaskState.TASK_IDLE
      completionTime := currentTime
      instancesCompleted := addU32 task.instancesCompleted 1
      totalResponseTime := addU32 task.totalResponseTime (subU32 currentTime task.arrivalTime)
      deadlineMisses :=
        if task.absoluteDeadline < currentTime then addU32 task.deadlineMisses 1
        else task.deadlineMisses
      currentInstance :=
        if MAX_INSTANCES ≤ task.currentInstance + 1 then 0 else task.currentInstance + 1 }
  else task

/-- The function checkForTaskCompletions. -/
def checkForTaskCompletions (taskSet : TaskSet) (currentTime : Nat) : TaskSet :=
  taskSet.map (completeTask currentTime)

/-- The selection loop of getHighestPriorityTask from index i on, with the task found
so far and its deadline. -/
def edfLoop : List Task → Nat → Option Nat → Nat → Option Nat
  | [], _, highest, _ => highest
  | task :: rest, i, highest, earliestDeadline =>
    if task.isActive = true ∧ task.absoluteDeadline < earliestDeadline then
      edfLoop rest (i + 1) (some i) task.absoluteDeadline
    else edfLoop rest (i + 1) highest earliestDeadline

/-- The state update at the end of getHighestPriorityTask. -/
def markRunning (task : Task) : Task :=
  if task.state = TaskState.TASK_READY then { task with state := TaskState.TASK_RUNNING }
  else task

/-- The function getHighestPriorityTask: the index of the returned task, if any, and
the task set after the call. -/
def getHighestPriorityTask (taskSet : TaskSet) : Option Nat × TaskSet :=
  match edfLoop taskSet 0 none portMAX_DELAY with
  | none => (none, taskSet)
  | some i => (some i, modifyAt markRunning i taskSet)

/-- The first loop of calculateSystemSlack: totalSlack and hasReadyTasks. -/
def slackLoop (currentTime : Nat) : List Task → Nat → Bool → Nat × Bool
  | [], totalSlack, hasReadyTasks => (totalSlack, hasReadyTasks)
  | task :: rest, totalSlack, hasReadyTasks =>
    if task.isActive = true then
      let taskSlack :=
        subU32 (subU32 task.absoluteDeadline currentTime) task.remainingExecutionTime
      slackLoop currentTime rest (if taskSlack < totalSlack then taskSlack else totalSlack) true
    else slackLoop currentTime rest totalSlack hasReadyTasks

/-- The second loop of calculateSystemSlack: the time until the next arrival. -/
def arrivalLoop (currentTime : Nat) : List Task → Nat → Nat
  | [], totalSlack => totalSlack
  | task :: rest, totalSlack =>
    if currentTime < task.nextArrivalTime then
      let timeUntilNextArrival := subU32 task.nextArrivalTime currentTime
      arrivalLoop currentTime rest
        (if timeUntilNextArrival < totalSlack then timeUntilNextArrival else totalSlack)
    else arrivalLoop currentTime rest totalSlack

/-- The function calculateSystemSlack. -/
def calculateSystemSlack (taskSet : TaskSet) (currentTime : Nat) : Nat :=
  let r := slackLoop currentTime taskSet portMAX_DELAY false
  if r.2 = false then arrivalLoop currentTime taskSet portMAX_DELAY else r.1

/-- The loop of calculateSimulationEndTime: the largest period. -/
def maxPeriodLoop : List Task → Nat → Nat
  | [], maxPeriod => maxPeriod
  | task :: rest, maxPeriod =>
    maxPeriodLoop rest (if maxPeriod < task.period then task.period else maxPeriod)

/-- The function calculateSimulationEndTime. -/
def calculateSimulationEndTime (taskSet : TaskSet) : Nat :=
  (maxPeriodLoop taskSet 0 * 3) % tickModulus

/-- The function executeTask: the task after the call and the new currentTime. -/
def executeTask (task : Task) (powerState : PowerState) (currentTime : Nat) : Task × Nat :=
  let progress := powerState.frequencyLevel
  let task1 :=
    if progress ≤ ofU32 task.remainingExecutionTime then
      { task with
        remainingExecutionTime := toU32 (fsub (ofU32 task.remainingExecutionTime) progress) }
    else { task with remainingExecutionTime := 0 }
  (task1, addU32 currentTime 1)

/-- The function updateStats.  The frequency level is compared with the double
constants 1.0, 0.8, 0.6 and 0.4. -/
def updateStats (stats : SchedulerStats) (powerState : PowerState) (currentTime : Nat) :
    SchedulerStats :=
  let f := powerState.frequencyLevel
  let s1 := { stats with totalExecutionTime := addU32 currentTime 1 }
  let s2 :=
    if f = floatOne then { s1 with timeAtFrequency3 := addU32 s1.timeAtFrequency3 1 }
    else if f = d08 then { s1 with timeAtFrequency2 := addU32 s1.timeAtFrequency2 1 }
    else if f = d06 then { s1 with timeAtFrequency1 := addU32 s1.timeAtFrequency1 1 }
    else if f = d04 then { s1 with timeAtFrequency0 := addU32 s1.timeAtFrequency0 1 }
    else s1
  let s3 :=
    if powerState.isDPMActive = true then { s2 with timeInPowerDown := addU32 s2.timeInPowerDown 1 }
    else s2
  let energyThisTick :=
    if powerState.isDPMActive = true then f005 else fmul (fmul f f) f
  { s3 with energyConsumption := fadd s3.energyConsumption energyThisTick }

/-! ## power_manager.c -/

/-- The table availableFrequencyLevels: the floats nearest to 0.4, 0.6, 0.8 and 1.0. -/
def availableFrequencyLevels : List CFloat := [f04, f06, f08, floatOne]

/-- The value of requiredFrequency computed by makeDVFSDecision (0.0 for a NULL task). -/
def requiredFrequency (task : Option Task) : FloatResult :=
  match task with
  | none => FloatResult.fin 0
  | some task =>
    let timeToDeadline := subU32 task.absoluteDeadline task.arrivalTime
    if 0 < task.remainingExecutionTime then
      let currentTimeToDeadline :=
        subU32 task.absoluteDeadline
          (subU32 (addU32 task.arrivalTime task.currentActual) task.remainingExecutionTime)
      if 0 < currentTimeToDeadline then
        fdiv (ofU32 task.remainingExecutionTime) (ofU32 currentTimeToDeadline)
      else FloatResult.fin floatOne
    else fdiv (ofU32 task.currentActual) (ofU32 timeToDeadline)

/-- The search loop of makeDVFSDecision from index i on: the first index whose level
is at least the required frequency. -/
def levelLoop (required : FloatResult) : List CFloat → Nat → Option Nat
  | [], _ => none
  | level :: rest, i =>
    if geResult level required = true then some i else levelLoop required rest (i + 1)

/-- The value of selectedFrequencyIndex after the search loop; it is initialised to 0. -/
def selectedFrequencyIndex (required : FloatResult) : Nat :=
  (levelLoop required availableFrequencyLevels 0).getD 0

/-- The function makeDVFSDecision. -/
def makeDVFSDecision (task : Option Task) (_slack : Nat) (currentState : PowerState) :
    PowerDecision :=
  if currentState.isDPMActive = true then
    { type := PowerDecisionType.POWER_DPM_OFF, newFrequencyLevel := currentState.frequencyLevel }
  else
    let newFrequency :=
      availableFrequencyLevels.getD (selectedFrequencyIndex (requiredFrequency task)) 0
    if newFrequency ≠ currentState.frequencyLevel then
      { type := PowerDecisionType.POWER_DVFS_CHANGE, newFrequencyLevel := newFrequency }
    else
      { type := PowerDecisionType.POWER_NO_CHANGE,
        newFrequencyLevel := currentState.frequencyLevel }

/-- The function makeDPMDecision.  It leaves the field newFrequencyLevel of its result
uninitialised; indeterminate stands for the value found there. -/
def makeDPMDecision (indeterminate : CFloat) (slack : Nat) (currentState : PowerState) :
    PowerDecision :=
  if DPM_THRESHOLD < slack ∧ currentState.isDPMActive = false then
    { type := PowerDecisionType.POWER_DPM_ON, newFrequencyLevel := indeterminate }
  else if currentState.isDPMActive = true ∧ slack ≤ DPM_THRESHOLD then
    { type := PowerDecisionType.POWER_DPM_OFF, newFrequencyLevel := indeterminate }
  else
    { type := PowerDecisionType.POWER_NO_CHANGE, newFrequencyLevel := indeterminate }

/-- The function applyPowerDecision. -/
def applyPowerDecision (decision : PowerDecision) (state : PowerState) : PowerState :=
  match decision.type with
  | PowerDecisionType.POWER_DVFS_CHANGE =>
    { state with frequencyLevel := decision.newFrequencyLevel }
  | PowerDecisionType.POWER_DPM_ON => { state with isDPMActive := true }
  | PowerDecisionType.POWER_DPM_OFF => { state with isDPMActive := false }
  | PowerDecisionType.POWER_NO_CHANGE => state

/-! ## main.c -/

/-- What logSchedulerState writes for one tick: the time, the running task as
(id, remainingExecutionTime, absoluteDeadline), the frequency level, the power mode,
the slack, the decision type and, for a DVFS change, the new level. -/
structure TraceRecord where
  time : Nat
  task : Option (Int × Nat × Nat)
  frequencyLevel : CFloat
  isDPMActive : Bool
  slack : Nat
  decision : PowerDecisionType
  newLevel : Option CFloat
deriving DecidableEq, Repr

/-- The function logSchedulerState. -/
def logSchedulerState (time : Nat) (task : Option Task) (powerState : PowerState)
    (slack : Nat) (decision : PowerDecision) : TraceRecord :=
  { time := time
    task := task.map (fun t => (t.id, t.remainingExecutionTime, t.absoluteDeadline))
    frequencyLevel := powerState.frequencyLevel
    isDPMActive := powerState.isDPMActive
    slack := slack
    decision := decision.type
    newLevel :=
      if decision.type = PowerDecisionType.POWER_DVFS_CHANGE then
        some decision.newFrequencyLevel
      else none }

/-- The globals of main.c and the local currentTime of mainSchedulerLoop; output is
the list of records written so far, oldest first. -/
structure SimState where
  taskSet : TaskSet
  currentPowerState : PowerState
  stats : SchedulerStats
  currentTime : Nat
  output : List TraceRecord
deriving DecidableEq, Repr

/-- The state of the globals after initializeSystem. -/
def initialPowerState : PowerState := { frequencyLevel := floatOne, isDPMActive := false }

/-- The statistics after the memset of initializeSystem. -/
def initialStats : SchedulerStats :=
  { totalExecutionTime := 0, energyConsumption := 0, dvfsTransitions := 0,
    dpmTransitions := 0, timeAtFrequency0 := 0, timeAtFrequency1 := 0,
    timeAtFrequency2 := 0, timeAtFrequency3 := 0, timeInPowerDown := 0 }

/-- The state in which mainSchedulerLoop starts. -/
def initialState (taskSet : TaskSet) : SimState :=
  { taskSet := taskSet, currentPowerState := initialPowerState, stats := initialStats,
    currentTime := 0, output := [] }

/-- The task set and the selection after the release and select phases of a tick. -/
def selectPhase (s : SimState) : Option Nat × TaskSet :=
  getHighestPriorityTask (checkForTaskArrivals s.taskSet s.currentTime)

/-- The decision taken in a tick, from the selection of selectPhase. -/
def decidePhase (indeterminate : CFloat) (s : SimState) : PowerDecision :=
  let sel := selectPhase s
  let slack := calculateSystemSlack sel.2 s.currentTime
  match sel.1 with
  | none => makeDPMDecision indeterminate slack s.currentPowerState
  | some i => makeDVFSDecision (sel.2[i]?) slack s.currentPowerState

/-- The body of the loop of mainSchedulerLoop: one tick. -/
def schedulerTick (indeterminate : CFloat) (s : SimState) : SimState :=
  let sel := selectPhase s
  let currentTask := sel.1.bind (fun i => sel.2[i]?)
  let slack := calculateSystemSlack sel.2 s.currentTime
  let decision := decidePhase indeterminate s
  let powerState := applyPowerDecision decision s.currentPowerState
  let stats := updateStats s.stats powerState s.currentTime
  let record := logSchedulerState s.currentTime currentTask powerState slack decision
  let taskSet :=
    match sel.1 with
    | some i => modifyAt (fun t => (executeTask t powerState s.currentTime).1) i sel.2
    | none => sel.2
  let currentTime := addU32 s.currentTime 1
  { taskSet := checkForTaskCompletions taskSet currentTime
    currentPowerState := powerState
    stats := stats
    currentTime := currentTime
    output := s.output ++ [record] }

/-- The while loop of mainSchedulerLoop, run for at most fuel iterations; none when
the loop has not ended by then. -/
def schedulerLoop (indeterminate : CFloat) (simulationEndTime : Nat) :
    Nat → SimState → Option SimState
  | 0, _ => none
  | fuel + 1, s =>
    if s.currentTime ≤ simulationEndTime then
      schedulerLoop indeterminate simulationEndTime fuel (schedulerTick indeterminate s)
    else some s

/-- The function mainSchedulerLoop on a loaded task set. -/
def mainSchedulerLoop (indeterminate : CFloat) (fuel : Nat) (taskSet : TaskSet) :
    Option SimState :=
  schedulerLoop indeterminate (calculateSimulationEndTime taskSet) fuel (initialState taskSet)

/-- The state after n iterations of the loop of mainSchedulerLoop, provided the loop
condition held before each of them. -/
def stateAfter (indeterminate : CFloat) (taskSet : TaskSet) : Nat → Option SimState
  | 0 => some (initialState taskSet)
  | n + 1 =>
    match stateAfter indeterminate taskSet n with
    | none => none
    | some s =>
      if s.currentTime ≤ calculateSimulationEndTime taskSet then
        some (schedulerTick indeterminate s)
      else none

/-- A task as loadTaskSet creates it, with every actual execution time at the WCET. -/
def loadedTask (id : Int) (period deadline wcet : Nat) : Task :=
  { id := id, period := period, relativeDeadline := deadline, worstCaseExecTime := wcet,
    state := TaskState.TASK_IDLE, nextArrivalTime := 0, absoluteDeadline := 0,
    remainingExecutionTime := 0, arrivalTime := 0, completionTime := 0,
    actualExecutionTime := List.replicate 100 wcet, currentInstance := 0,
    instancesCompleted := 0, deadlineMisses := 0, totalResponseTime := 0 }

/-- The number of tasks of a task set in state TASK_RUNNING. -/
def runningCount (taskSet : TaskSet) : Nat :=
  (taskSet.filter (fun t => decide (t.state = TaskState.TASK_RUNNING))).length

/-! ## Scenarios -/

/-- The task set loaded from the line 1 4294967295 4294967295 1, after the release
at time 0: one READY task whose deadline is portMAX_DELAY. -/
def sentinelTaskSet : TaskSet :=
  checkForTaskArrivals [loadedTask 1 4294967295 4294967295 1] 0

/-- The task set of scenario S5 after the release at time 0. -/
def tieTaskSet : TaskSet :=
  checkForTaskArrivals [loadedTask 1 10 10 2, loadedTask 2 10 10 2] 0

/-- Two loaded tasks: task 1 with period 20, deadline 20 and execution time 5, task 2
with period 4, deadline 2 and execution time 2. -/
def preemptTaskSet : TaskSet := [loadedTask 1 20 20 5, loadedTask 2 4 2 2]

/-- A task of scenario S4 at time 12: RUNNING, released at 0 with deadline 10, no work
left. -/
def lateTask : Task :=
  { loadedTask 1 10 10 10 with
    state := TaskState.TASK_RUNNING, absoluteDeadline := 10, nextArrivalTime := 10 }

/-- The task lateTask with its three statistics at or near the largest 32-bit value. -/
def saturatedTask : Task :=
  { lateTask with
    instancesCompleted := 4294967295, deadlineMisses := 4294967295,
    totalResponseTime := 4294967290 }

/-- The task set of scenario S2: the first instance of the task runs for 5 ticks. -/
def s2TaskSet : TaskSet :=
  [{ loadedTask 1 10 10 10 with actualExecutionTime := 5 :: List.replicate 99 10 }]

/-- The task of scenario S2 once selected at time 0: W = r = 5, a = 0, d = 10. -/
def s2Task : Task :=
  { loadedTask 1 10 10 10 with
    actualExecutionTime := 5 :: List.replicate 99 10, state := TaskState.TASK_RUNNING,
    remainingExecutionTime := 5, absoluteDeadline := 10, nextArrivalTime := 10 }

/-- The task set of scenario S4: the first instance of the task runs for 12 ticks. -/
def s4TaskSet : TaskSet :=
  [{ loadedTask 1 10 10 10 with actualExecutionTime := 12 :: List.replicate 99 10 }]

/-- The task of scenario S4 with one tick of work left: D = 10, W = 12, a = 0, d = 10,
r = 1. -/
def s4LateTask : Task :=
  { loadedTask 1 10 10 10 with
    actualExecutionTime := 12 :: List.replicate 99 10, state := TaskState.TASK_RUNNING,
    remainingExecutionTime := 1, absoluteDeadline := 10, nextArrivalTime := 10 }

/-- A loaded task set with one task of period and deadline 3728273 and execution time
2236964. -/
def longTaskSet : TaskSet := [loadedTask 1 3728273 3728273 2236964]

/-- The task set of scenario S1: every instance runs for its WCET of 10 ticks. -/
def s1TaskSet : TaskSet := [loadedTask 1 10 10 10]

/-- The task set of scenario S4 with a second task that needs 2 ticks before its
deadline 10. -/
def s4MixedTaskSet : TaskSet :=
  [{ loadedTask 1 10 10 10 with actualExecutionTime := 12 :: List.replicate 99 10 },
    loadedTask 2 10 10 2]

/-- A loaded task set with one task of period 100, deadline 10 and execution time 10:
it runs at level 1.0 and leaves 90 idle ticks per period. -/
def idleTaskSet : TaskSet := [loadedTask 1 100 10 10]

/-- A loaded task set whose largest period is 1431655765, a third of portMAX_DELAY. -/
def maxEndTaskSet : TaskSet := [loadedTask 1 1431655765 10 1]

/-- Two loaded tasks of period 25: task 1 with deadline 4294967295, task 2 with
deadline 25, both with execution time 1. -/
def sentinelDpmTaskSet : TaskSet := [loadedTask 1 25 4294967295 1, loadedTask 2 25 25 1]

/-- The number of records of a trace with the given decision type. -/
def decisionCount (type : PowerDecisionType) (output : List TraceRecord) : Nat :=
  output.countP (fun r => decide (r.decision = type))

/-- The number of records of a trace written with DPM active (Power-down). -/
def powerDownCount (output : List TraceRecord) : Nat :=
  output.countP (fun r => r.isDPMActive)

/-- The number of records of a trace written at frequency level 1.0. -/
def fullSpeedCount (output : List TraceRecord) : Nat :=
  output.countP (fun r => decide (r.frequencyLevel = floatOne))

/-- An IDLE task whose next arrival is at time 50 (scenario S6 after its first
instance). -/
def waitingTask : Task := { loadedTask 1 50 50 5 with nextArrivalTime := 50 }

/-- The state of the driver after 11 ticks on idleTaskSet. -/
def idleState11 : SimState := (schedulerTick 0)^[11] (initialState idleTaskSet)

/-- A loaded task set with one task of period 25, deadline 25 and execution time 1. -/
def wakeTaskSet : TaskSet := [loadedTask 1 25 25 1]

/-- The state of the driver after 5 ticks on wakeTaskSet. -/
def wakeState5 : SimState := (schedulerTick 0)^[5] (initialState wakeTaskSet)

/-- The task set of scenario S6. -/
def s6TaskSet : TaskSet := [loadedTask 1 50 50 5]

/-- The state of the driver after the first tick of scenario S2. -/
def s2State1 : SimState := (schedulerTick 0)^[1] (initialState s2TaskSet)

/-- No release is late at the start of the tick of state s: every IDLE task whose next
arrival time has been reached is due exactly at the current time. -/
def releasesOnTime (s : SimState) : Prop :=
  ∀ task ∈ s.taskSet, task.state = TaskState.TASK_IDLE →
    task.nextArrivalTime ≤ s.currentTime → task.nextArrivalTime = s.currentTime

instance releasesOnTime_decidable (s : SimState) : Decidable (releasesOnTime s) :=
  inferInstanceAs (Decidable (∀ task ∈ s.taskSet, task.state = TaskState.TASK_IDLE →
    task.nextArrivalTime ≤ s.currentTime → task.nextArrivalTime = s.currentTime))

/-- Two loaded tasks of period 10: task 1 with deadline 5 and execution time 3, task 2
with deadline 10 whose first instance has the actual execution time 0. -/
def zeroTaskSet : TaskSet :=
  [loadedTask 1 10 5 3,
    { loadedTask 2 10 10 5 with actualExecutionTime := 0 :: List.replicate 99 5 }]

/-- The state of the driver after one tick on preemptTaskSet. -/
def preemptState1 : SimState := (schedulerTick 0)^[1] (initialState preemptTaskSet)

/-- A loaded task set with one task of period and deadline 30000000 and execution time
8388609 = 2 ^ 23 + 1; it is run at level 0.4. -/
def stalledTaskSet : TaskSet := [loadedTask 1 30000000 30000000 8388609]

/-- A loaded task set with one task of period and deadline 20000000 and execution time
16777219 = 2 ^ 24 + 3. -/
def hugeTaskSet : TaskSet := [loadedTask 1 20000000 20000000 16777219]

/-! ## Selection by earliest deadline -/

theorem modifyAt_eq_set {α : Type} (f : α → α) (l : List α) (i : Nat) (x : α)
    (h : l[i]? = some x) : modifyAt f i l = l.set i (f x) := by
  induction l generalizing i with
  | nil => simp at h
  | cons y ys ih =>
    cases i with
    | zero =>
      simp at h
      subst h
      rfl
    | succ i =>
      simp at h
      simp [modifyAt, ih i h]

theorem edfLoop_no_candidate (l : List Task) (i : Nat) (highest : Option Nat) (e : Nat)
    (h : ∀ t ∈ l, t.isActive = true → e ≤ t.absoluteDeadline) :
    edfLoop l i highest e = highest := by
  induction l generalizing i with
  | nil => rfl
  | cons t rest ih =>
    have ht : ¬ (t.isActive = true ∧ t.absoluteDeadline < e) := by
      intro hc
      have := h t (List.mem_cons_self _ _) hc.1
      omega
    rw [edfLoop, if_neg ht]
    exact ih (i + 1) (fun u hu => h u (List.mem_cons_of_mem _ hu))

theorem edfLoop_candidate (l : List Task) (i : Nat) (highest : Option Nat) (e : Nat)
    (h : ∃ t ∈ l, t.isActive = true ∧ t.absoluteDeadline < e) :
    ∃ j t, l[j]? = some t ∧ t.isActive = true ∧ t.absoluteDeadline < e ∧
      edfLoop l i highest e = some (i + j) ∧
      ∀ k u, l[k]? = some u → u.isActive = true →
        t.absoluteDeadline ≤ u.absoluteDeadline ∧ (k < j → t.absoluteDeadline < u.absoluteDeadline) := by
  induction l generalizing i highest e with
  | nil => simp at h
  | cons hd rest ih =>
    by_cases hc : hd.isActive = true ∧ hd.absoluteDeadline < e
    · rw [edfLoop, if_pos hc]
      by_cases hr : ∃ t ∈ rest, t.isActive = true ∧ t.absoluteDeadline < hd.absoluteDeadline
      · obtain ⟨j, t, hj, hact, hlt, hres, hmin⟩ := ih (i + 1) (some i) hd.absoluteDeadline hr
        refine ⟨j + 1, t, by simpa using hj, hact, by omega, ?_, ?_⟩
        · rw [hres]
          congr 1
          omega
        · intro k u hk hu
          cases k with
          | zero =>
            simp at hk
            subst hk
            exact ⟨by omega, fun _ => hlt⟩
          | succ k =>
            simp at hk
            obtain ⟨h1, h2⟩ := hmin k u hk hu
            exact ⟨h1, fun hkj => h2 (by omega)⟩
      · have hr2 : ∀ t ∈ rest, t.isActive = true → hd.absoluteDeadline ≤ t.absoluteDeadline := by
          intro t ht hta
          by_contra hlt
          exact hr ⟨t, ht, hta, by omega⟩
        refine ⟨0, hd, by simp, hc.1, hc.2, ?_, ?_⟩
        · rw [edfLoop_no_candidate rest (i + 1) (some i) _ hr2]
          rfl
        · intro k u hk hu
          cases k with
          | zero =>
            simp at hk
            subst hk
            exact ⟨le_refl _, fun h0 => absurd h0 (by omega)⟩
          | succ k =>
            simp at hk
            exact ⟨hr2 u (List.getElem?_mem hk) hu, fun h0 => absurd h0 (by omega)⟩
    · rw [edfLoop, if_neg hc]
      have hr : ∃ t ∈ rest, t.isActive = true ∧ t.absoluteDeadline < e := by
        obtain ⟨t, ht, hta, htd⟩ := h
        rcases List.mem_cons.1 ht with rfl | ht2
        · exact absurd ⟨hta, htd⟩ hc
        · exact ⟨t, ht2, hta, htd⟩
      obtain ⟨j, t, hj, hact, hlt, hres, hmin⟩ := ih (i + 1) highest e hr
      refine ⟨j + 1, t, by simpa using hj, hact, hlt, ?_, ?_⟩
      · rw [hres]
        congr 1
        omega
      · intro k u hk hu
        cases k with
        | zero =>
          simp at hk
          subst hk
          have he : e ≤ hd.absoluteDeadline := by
            by_contra hlt2
            exact hc ⟨hu, by omega⟩
          exact ⟨by omega, fun _ => by omega⟩
        | succ k =>
          simp at hk
          obtain ⟨h1, h2⟩ := hmin k u hk hu
          exact ⟨h1, fun hkj => h2 (by omega)⟩

theorem markRunning_of_isActive (t : Task) (h : t.isActive = true) :
    markRunning t = { t with state := TaskState.TASK_RUNNING } := by
  unfold markRunning
  by_cases hr : t.state = TaskState.TASK_READY
  · rw [if_pos hr]
  · rw [if_neg hr]
    have : t.state = TaskState.TASK_RUNNING := by
      simpa [Task.isActive, hr] using h
    cases t
    simp_all

/-- C1 (as stated, refuted): the only task of the set is READY, so it is the READY
task of minimal deadline, yet getHighestPriorityTask returns none, because its deadline
equals the initial value portMAX_DELAY of the search. -/
theorem getHighestPriorityTask_sentinel_counterexample :
    (sentinelTaskSet.map (fun t => (t.state, t.absoluteDeadline))
        = [(TaskState.TASK_READY, 4294967295)]) ∧
    getHighestPriorityTask sentinelTaskSet = (none, sentinelTaskSet) := by
  decide

/-- C1 (amended): when every READY or RUNNING task has a deadline below portMAX_DELAY,
getHighestPriorityTask returns none and leaves the task set as it is if no task is READY
or RUNNING; otherwise it returns the index i of a READY or RUNNING task whose deadline is
minimal among the READY and RUNNING tasks and strictly below that of every such task at
an earlier index, and the task set afterwards differs only in that the state of task i is
RUNNING. -/
theorem getHighestPriorityTask_edf (taskSet : TaskSet)
    (hd : ∀ t ∈ taskSet, t.isActive = true → t.absoluteDeadline < portMAX_DELAY) :
    ((∀ t ∈ taskSet, t.isActive = false) → getHighestPriorityTask taskSet = (none, taskSet)) ∧
    ((∃ t ∈ taskSet, t.isActive = true) →
      ∃ i t, taskSet[i]? = some t ∧ t.isActive = true ∧
        (∀ k u, taskSet[k]? = some u → u.isActive = true →
          t.absoluteDeadline ≤ u.absoluteDeadline ∧
          (k < i → t.absoluteDeadline < u.absoluteDeadline)) ∧
        getHighestPriorityTask taskSet
          = (some i, taskSet.set i { t with state := TaskState.TASK_RUNNING })) := by
  constructor
  · intro hno
    have h := edfLoop_no_candidate taskSet 0 none portMAX_DELAY
      (fun t ht hta => by rw [hno t ht] at hta; exact absurd hta (by decide))
    simp [getHighestPriorityTask, h]
  · rintro ⟨t0, ht0, hact0⟩
    obtain ⟨j, t, hj, hact, _, hres, hmin⟩ :=
      edfLoop_candidate taskSet 0 none portMAX_DELAY ⟨t0, ht0, hact0, hd t0 ht0 hact0⟩
    refine ⟨j, t, hj, hact, hmin, ?_⟩
    simp only [getHighestPriorityTask, hres, Nat.zero_add]
    rw [modifyAt_eq_set markRunning taskSet j t hj, markRunning_of_isActive t hact]

/-- C1 witness: scenario S5, two READY tasks with deadline 10; the task at index 0
is returned. -/
theorem getHighestPriorityTask_edf_witness :
    (∀ t ∈ tieTaskSet, t.isActive = true → t.absoluteDeadline < portMAX_DELAY) ∧
    (getHighestPriorityTask tieTaskSet).1 = some 0 ∧
    ((∃ t ∈ tieTaskSet, t.isActive = true) →
      ∃ i t, tieTaskSet[i]? = some t ∧ t.isActive = true ∧
        (∀ k u, tieTaskSet[k]? = some u → u.isActive = true →
          t.absoluteDeadline ≤ u.absoluteDeadline ∧
          (k < i → t.absoluteDeadline < u.absoluteDeadline)) ∧
        getHighestPriorityTask tieTaskSet
          = (some i, tieTaskSet.set i { t with state := TaskState.TASK_RUNNING })) :=
  ⟨by decide, by decide, (getHighestPriorityTask_edf tieTaskSet (by decide)).2⟩

/-! ## The driver does not demote a preempted task -/

/-- C2 (code at the failing input): after five iterations of the driver loop on
preemptTaskSet, all within the simulation end time 60, both tasks are in state
TASK_RUNNING: task 2, released at time 4 with deadline 6, was selected while task 1
(deadline 20, 3 ticks of work left) was RUNNING, and task 1 was not set back to READY. -/
theorem driver_two_running_tasks :
    calculateSimulationEndTime preemptTaskSet = 60 ∧
    (stateAfter 0 preemptTaskSet 5).map (fun s => s.currentTime) = some 5 ∧
    (stateAfter 0 preemptTaskSet 5).map (fun s => runningCount s.taskSet) = some 2 ∧
    (stateAfter 0 preemptTaskSet 5).map (fun s => s.taskSet.map (fun t => t.state))
      = some [TaskState.TASK_RUNNING, TaskState.TASK_RUNNING] ∧
    (stateAfter 0 preemptTaskSet 5).map
        (fun s => s.taskSet.map (fun t => (t.remainingExecutionTime, t.absoluteDeadline)))
      = some [(3, 20), (1, 6)] := by
  decide

/-! ## The DPM decision and the application of a decision -/

/-- C6: makeDPMDecision returns DPM_ON exactly when slack > 20 and DPM is inactive,
DPM_OFF exactly when DPM is active and slack <= 20, NO_CHANGE exactly in the remaining
cases, and never DVFS_CHANGE. -/
theorem makeDPMDecision_cases (indeterminate : CFloat) (slack : Nat) (st : PowerState) :
    DPM_THRESHOLD = 20 ∧
    ((makeDPMDecision indeterminate slack st).type = PowerDecisionType.POWER_DPM_ON
      ↔ (20 < slack ∧ st.isDPMActive = false)) ∧
    ((makeDPMDecision indeterminate slack st).type = PowerDecisionType.POWER_DPM_OFF
      ↔ (st.isDPMActive = true ∧ slack ≤ 20)) ∧
    ((makeDPMDecision indeterminate slack st).type = PowerDecisionType.POWER_NO_CHANGE
      ↔ (¬ (20 < slack ∧ st.isDPMActive = false) ∧ ¬ (st.isDPMActive = true ∧ slack ≤ 20))) ∧
    (makeDPMDecision indeterminate slack st).type ≠ PowerDecisionType.POWER_DVFS_CHANGE := by
  unfold makeDPMDecision DPM_THRESHOLD
  have h2 : slack ≤ 20 ↔ ¬ 20 < slack := by omega
  cases hb : st.isDPMActive <;> by_cases hs : 20 < slack <;> simp [hs, h2]

/-- C7: applyPowerDecision with DVFS_CHANGE sets frequencyLevel to the new level and
keeps isDPMActive; with DPM_ON (DPM_OFF) it sets isDPMActive to true (false) and keeps
frequencyLevel; with NO_CHANGE it returns the state unchanged, also when applied twice. -/
theorem applyPowerDecision_frame (level : CFloat) (st : PowerState) :
    applyPowerDecision ⟨PowerDecisionType.POWER_DVFS_CHANGE, level⟩ st
      = { frequencyLevel := level, isDPMActive := st.isDPMActive } ∧
    applyPowerDecision ⟨PowerDecisionType.POWER_DPM_ON, level⟩ st
      = { frequencyLevel := st.frequencyLevel, isDPMActive := true } ∧
    applyPowerDecision ⟨PowerDecisionType.POWER_DPM_OFF, level⟩ st
      = { frequencyLevel := st.frequencyLevel, isDPMActive := false } ∧
    applyPowerDecision ⟨PowerDecisionType.POWER_NO_CHANGE, level⟩ st = st ∧
    applyPowerDecision ⟨PowerDecisionType.POWER_NO_CHANGE, level⟩
        (applyPowerDecision ⟨PowerDecisionType.POWER_NO_CHANGE, level⟩ st)
      = applyPowerDecision ⟨PowerDecisionType.POWER_NO_CHANGE, level⟩ st := by
  refine ⟨rfl, rfl, rfl, rfl, rfl⟩

/-! ## Release and completion sweeps -/

/-- C9 (as stated, refuted): saturatedTask is RUNNING with remainingExecutionTime = 0,
arrivalTime = 0 and absoluteDeadline = 10, and has instancesCompleted = 4294967295,
deadlineMisses = 4294967295 and totalResponseTime = 4294967290.  The sweep at time 12
completes it and leaves instancesCompleted = 0, deadlineMisses = 0 and
totalResponseTime = 6: the 32-bit counters wrap, so instancesCompleted decreases and
none of the three has grown by the stated amount. -/
theorem completion_counters_wrap_counterexample :
    saturatedTask.state = TaskState.TASK_RUNNING ∧
    saturatedTask.remainingExecutionTime = 0 ∧
    [saturatedTask].map (fun u => (u.instancesCompleted, u.deadlineMisses, u.totalResponseTime))
      = [(4294967295, 4294967295, 4294967290)] ∧
    (checkForTaskCompletions [saturatedTask] 12).map
        (fun u => (u.state, u.completionTime))
      = [(TaskState.TASK_IDLE, 12)] ∧
    (checkForTaskCompletions [saturatedTask] 12).map
        (fun u => (u.instancesCompleted, u.deadlineMisses, u.totalResponseTime))
      = [(0, 0, 6)] ∧
    ¬ (∀ u ∈ checkForTaskCompletions [saturatedTask] 12,
        saturatedTask.instancesCompleted ≤ u.instancesCompleted) := by
  refine ⟨by decide, by decide, by decide, by decide, by decide, by decide⟩

/-- C9 (amended): checkForTaskCompletions keeps the number of tasks and, for the task
at each index, changes it exactly when it is RUNNING with remainingExecutionTime = 0.  A
completed task becomes IDLE with completionTime = t; totalResponseTime grows by
t - arrivalTime, instancesCompleted by 1, and deadlineMisses by 1 exactly when
t > absoluteDeadline, as unsigned 32-bit values (modulo 2 ^ 32): by the plain amounts
when the result stays below 2 ^ 32, in particular instancesCompleted grows by exactly 1
when it is below 4294967295.  currentInstance becomes (currentInstance + 1) mod
MAX_INSTANCES and stays in [0, MAX_INSTANCES) when it was there.  Everything else, and
every other task, is unchanged; instancesCompleted does not decrease when it is below
4294967295. -/
theorem checkForTaskCompletions_spec (taskSet : TaskSet) (t i : Nat) (task : Task)
    (h : taskSet[i]? = some task) :
    (checkForTaskCompletions taskSet t).length = taskSet.length ∧
    ∃ u, (checkForTaskCompletions taskSet t)[i]? = some u ∧
      (u.id = task.id ∧ u.period = task.period ∧ u.relativeDeadline = task.relativeDeadline ∧
        u.worstCaseExecTime = task.worstCaseExecTime ∧
        u.nextArrivalTime = task.nextArrivalTime ∧
        u.absoluteDeadline = task.absoluteDeadline ∧
        u.remainingExecutionTime = task.remainingExecutionTime ∧
        u.arrivalTime = task.arrivalTime ∧
        u.actualExecutionTime = task.actualExecutionTime) ∧
      (task.instancesCompleted < 4294967295 → task.instancesCompleted ≤ u.instancesCompleted) ∧
      ((task.state = TaskState.TASK_RUNNING ∧ task.remainingExecutionTime = 0) →
        u ≠ task ∧
        u.state = TaskState.TASK_IDLE ∧
        u.completionTime = t ∧
        u.totalResponseTime
          = (task.totalResponseTime + subU32 t task.arrivalTime) % 4294967296 ∧
        u.instancesCompleted = (task.instancesCompleted + 1) % 4294967296 ∧
        (t > task.absoluteDeadline → u.deadlineMisses = (task.deadlineMisses + 1) % 4294967296) ∧
        (¬ t > task.absoluteDeadline → u.deadlineMisses = task.deadlineMisses) ∧
        (task.arrivalTime ≤ t → t < 4294967296 →
          task.totalResponseTime + (t - task.arrivalTime) < 4294967296 →
          u.totalResponseTime = task.totalResponseTime + (t - task.arrivalTime)) ∧
        (task.instancesCompleted < 4294967295 →
          u.instancesCompleted = task.instancesCompleted + 1) ∧
        (t > task.absoluteDeadline → task.deadlineMisses < 4294967295 →
          u.deadlineMisses = task.deadlineMisses + 1) ∧
        (0 ≤ task.currentInstance → task.currentInstance < MAX_INSTANCES →
          u.currentInstance = (task.currentInstance + 1) % MAX_INSTANCES ∧
          0 ≤ u.currentInstance ∧ u.currentInstance < MAX_INSTANCES)) ∧
      (¬ (task.state = TaskState.TASK_RUNNING ∧ task.remainingExecutionTime = 0) → u = task) := by
  refine ⟨by simp [checkForTaskCompletions], completeTask t task, ?_, ?_, ?_, ?_, ?_⟩
  · simp [checkForTaskCompletions, h]
  · unfold completeTask
    split <;> simp
  · intro hlt
    unfold completeTask
    split
    · simp only [addU32, tickModulus]
      omega
    · exact le_refl _
  · rintro ⟨hs, hr⟩
    have hc : task.state = TaskState.TASK_RUNNING ∧ task.remainingExecutionTime ≤ 0 :=
      ⟨hs, by omega⟩
    unfold completeTask
    rw [if_pos hc]
    refine ⟨?_, rfl, rfl, rfl, rfl, ?_, ?_, ?_, ?_, ?_, ?_⟩
    · intro he
      have := congrArg Task.state he
      simp [hs] at this
    · intro hgt
      have hgt2 : task.absoluteDeadline < t := hgt
      simp [hgt2, addU32, tickModulus]
    · intro hgt
      have hgt2 : ¬ task.absoluteDeadline < t := hgt
      simp [hgt2]
    · intro h1 h2 h3
      simp only [addU32, subU32, tickModulus]
      omega
    · intro h1
      simp only [addU32, tickModulus]
      omega
    · intro hgt h1
      have hgt2 : task.absoluteDeadline < t := hgt
      simp only [hgt2, if_true, addU32, tickModulus]
      omega
    · intro h0 h1
      simp only [MAX_INSTANCES] at *
      split <;> omega
  · intro hn
    have hc : ¬ (task.state = TaskState.TASK_RUNNING ∧ task.remainingExecutionTime ≤ 0) :=
      fun hc => hn ⟨hc.1, by omega⟩
    unfold completeTask
    rw [if_neg hc]

/-- C9 witness: the completion of lateTask at time 12 counts one deadline miss. -/
theorem checkForTaskCompletions_spec_witness :
    [lateTask][0]? = some lateTask ∧
    (checkForTaskCompletions [lateTask] 12).map
        (fun u => (u.state, u.completionTime, u.totalResponseTime, u.instancesCompleted,
          u.deadlineMisses, u.currentInstance))
      = [(TaskState.TASK_IDLE, 12, 12, 1, 1, 1)] ∧
    (checkForTaskCompletions [lateTask] 12).length = [lateTask].length :=
  ⟨by decide, by decide, (checkForTaskCompletions_spec [lateTask] 12 0 lateTask (by decide)).1⟩

/-! ## Single-precision rounding -/

theorem roundHalfEven_bounds (num den : Nat) :
    num / den ≤ roundHalfEven num den ∧ roundHalfEven num den ≤ num / den + 1 := by
  unfold roundHalfEven
  simp only
  split_ifs <;> omega

theorem roundHalfEven_mul (k den : Nat) (hd : 0 < den) : roundHalfEven (k * den) den = k := by
  unfold roundHalfEven
  simp [Nat.mul_div_cancel _ hd, hd]

theorem roundHalfEven_le_iff (num den m : Nat) (hd : 0 < den) :
    roundHalfEven num den ≤ m ↔
      (if m % 2 = 0 then 2 * num ≤ (2 * m + 1) * den else 2 * num < (2 * m + 1) * den) := by
  have hdm := Nat.div_add_mod num den
  have hr := Nat.mod_lt num hd
  have hb := roundHalfEven_bounds num den
  set q := num / den with hq
  set r := num % den with hrr
  have e1 : (2 * m + 1) * den = 2 * (den * m) + den := by ring
  rcases Nat.lt_trichotomy q m with hlt | heq | hgt
  · have h1 : den * (q + 1) ≤ den * m := Nat.mul_le_mul_left _ hlt
    have h2 : den * (q + 1) = den * q + den := by ring
    have hl : roundHalfEven num den ≤ m := by omega
    simp only [hl, true_iff]
    split_ifs <;> omega
  · subst heq
    unfold roundHalfEven
    simp only [← hq, ← hrr]
    split_ifs <;> omega
  · have h1 : den * (m + 1) ≤ den * q := Nat.mul_le_mul_left _ hgt
    have h2 : den * (m + 1) = den * m + den := by ring
    have hl : ¬ roundHalfEven num den ≤ m := by omega
    simp only [hl, false_iff]
    split_ifs <;> omega

theorem excessBits_small (fuel q : Nat) (h : q < 16777216) : excessBits fuel q = 0 := by
  cases fuel with
  | zero => rfl
  | succ n => simp [excessBits, h]

theorem excessBits_eq (s : Nat) : ∀ fuel q, q ≤ fuel → 2 ^ (23 + s) ≤ q → q < 2 ^ (24 + s) →
    excessBits fuel q = s := by
  induction s with
  | zero =>
    intro fuel q _ _ h2
    exact excessBits_small fuel q (by simpa using h2)
  | succ s ih =>
    intro fuel q hf h1 h2
    have hp : 2 ^ (23 + (s + 1)) = 2 * 2 ^ (23 + s) := by ring
    have hp2 : 2 ^ (24 + (s + 1)) = 2 * 2 ^ (24 + s) := by ring
    have hp3 : (2:Nat) ^ (23 + s) ≥ 2 ^ 23 := Nat.pow_le_pow_right (by norm_num) (by omega)
    have h24 : (2:Nat) ^ 23 = 8388608 := by norm_num
    cases fuel with
    | zero => omega
    | succ n =>
      have hq : ¬ q < 16777216 := by omega
      rw [excessBits, if_neg hq, ih n (q / 2) (by omega) (by omega) (by omega)]

theorem roundF32_shift (num den : Nat) :
    ∃ s, roundF32 num den = roundHalfEven num (den * 2 ^ s) * 2 ^ s ∧
      ((s = 0 ∧ num / den < 2 ^ 24) ∨
        (2 ^ (23 + s) ≤ num / den ∧ num / den < 2 ^ (24 + s))) := by
  by_cases hq : num / den < 16777216
  · exact ⟨0, by simp [roundF32, excessBits_small _ _ hq], Or.inl ⟨rfl, by norm_num; exact hq⟩⟩
  · have hq0 : num / den ≠ 0 := by omega
    have h1 := Nat.pow_log_le_self 2 hq0
    have h2 := Nat.lt_pow_succ_log_self (by norm_num : 1 < 2) (num / den)
    have h3 : 24 ≤ Nat.log 2 (num / den) :=
      Nat.le_log_of_pow_le (by norm_num) (by norm_num; omega)
    obtain ⟨s, hs⟩ : ∃ s, Nat.log 2 (num / den) = 23 + s := ⟨Nat.log 2 (num / den) - 23, by omega⟩
    rw [hs] at h1
    have h2' : num / den < 2 ^ (24 + s) := by
      have : (Nat.log 2 (num / den)).succ = 24 + s := by omega
      rw [this] at h2
      exact h2
    refine ⟨s, ?_, Or.inr ⟨h1, h2'⟩⟩
    simp [roundF32, excessBits_eq s _ _ (le_refl _) h1 h2']

theorem roundF32_le_iff (num den m e : Nat) (hd : 0 < den) (hm1 : 2 ^ 23 ≤ m)
    (hm2 : m < 2 ^ 24) :
    roundF32 num den ≤ m * 2 ^ e ↔
      (if m % 2 = 0 then 2 * num ≤ (2 * m + 1) * 2 ^ e * den
        else 2 * num < (2 * m + 1) * 2 ^ e * den) := by
  obtain ⟨s, hr, hs⟩ := roundF32_shift num den
  rw [hr]
  have hdm := Nat.div_add_mod num den
  have hmod := Nat.mod_lt num hd
  norm_num at hm1 hm2
  have hA : 0 < 2 ^ s := Nat.two_pow_pos _
  have hE : 0 < 2 ^ e := Nat.two_pow_pos _
  have hD : 0 < den * 2 ^ s := Nat.mul_pos hd hA
  have hb := roundHalfEven_bounds num (den * 2 ^ s)
  have hqq : num / (den * 2 ^ s) = num / den / 2 ^ s := (Nat.div_div_eq_div_mul _ _ _).symm
  rcases Nat.lt_trichotomy s e with hlt | heq | hgt
  · -- the result lies in a binade below that of m * 2 ^ e
    obtain ⟨k, hk⟩ : ∃ k, e = s + (k + 1) := ⟨e - s - 1, by omega⟩
    have hK : 2 ≤ 2 ^ (k + 1) := by
      calc 2 = 2 ^ 1 := by norm_num
        _ ≤ 2 ^ (k + 1) := Nat.pow_le_pow_right (by norm_num) (by omega)
    have hpe : 2 ^ e = 2 ^ s * 2 ^ (k + 1) := by rw [hk, pow_add]
    have hq24 : num / den < 16777216 * 2 ^ s := by
      rcases hs with ⟨h0, h1⟩ | ⟨_, h1⟩
      · subst h0
        simpa using h1
      · rw [pow_add] at h1
        simpa using h1
    have hq' : num / (den * 2 ^ s) < 16777216 := by
      rw [hqq]
      exact Nat.div_lt_of_lt_mul (by rw [Nat.mul_comm]; exact hq24)
    have hl : roundHalfEven num (den * 2 ^ s) * 2 ^ s ≤ m * 2 ^ e := by
      rw [hpe]
      calc roundHalfEven num (den * 2 ^ s) * 2 ^ s ≤ 16777216 * 2 ^ s :=
            Nat.mul_le_mul_right _ (by omega)
        _ ≤ (m * 2 ^ (k + 1)) * 2 ^ s := Nat.mul_le_mul_right _ (by nlinarith)
        _ = m * (2 ^ s * 2 ^ (k + 1)) := by ring
    have hnum : num < den * (16777216 * 2 ^ s) := by
      have h1 : num / den + 1 ≤ 16777216 * 2 ^ s := hq24
      have h2 : den * (num / den + 1) ≤ den * (16777216 * 2 ^ s) := Nat.mul_le_mul_left _ h1
      have h3 : den * (num / den + 1) = den * (num / den) + den := by ring
      omega
    have hbig : 2 * (den * (16777216 * 2 ^ s)) ≤ (2 * m + 1) * 2 ^ e * den := by
      rw [hpe]
      have h4 : 2 * 16777216 ≤ (2 * m + 1) * 2 ^ (k + 1) := by nlinarith
      calc 2 * (den * (16777216 * 2 ^ s)) = (2 * 16777216) * (den * 2 ^ s) := by ring
        _ ≤ ((2 * m + 1) * 2 ^ (k + 1)) * (den * 2 ^ s) := Nat.mul_le_mul_right _ h4
        _ = (2 * m + 1) * (2 ^ s * 2 ^ (k + 1)) * den := by ring
    simp only [hl, true_iff]
    split_ifs <;> omega
  · subst heq
    rw [mul_le_mul_right hA, roundHalfEven_le_iff num (den * 2 ^ s) m hD]
    have e1 : (2 * m + 1) * (den * 2 ^ s) = (2 * m + 1) * 2 ^ s * den := by ring
    rw [e1]
  · -- the result lies in a binade above that of m * 2 ^ e
    obtain ⟨k, hk⟩ : ∃ k, s = e + (k + 1) := ⟨s - e - 1, by omega⟩
    have hK : 2 ≤ 2 ^ (k + 1) := by
      calc 2 = 2 ^ 1 := by norm_num
        _ ≤ 2 ^ (k + 1) := Nat.pow_le_pow_right (by norm_num) (by omega)
    have hps : 2 ^ s = 2 ^ e * 2 ^ (k + 1) := by rw [hk, pow_add]
    have hq23 : 8388608 * 2 ^ s ≤ num / den := by
      rcases hs with ⟨h0, _⟩ | ⟨h1, _⟩
      · omega
      · rw [pow_add] at h1
        simpa using h1
    have hq' : 8388608 ≤ num / (den * 2 ^ s) := by
      rw [hqq]
      exact (Nat.le_div_iff_mul_le hA).2 hq23
    have hl : ¬ roundHalfEven num (den * 2 ^ s) * 2 ^ s ≤ m * 2 ^ e := by
      rw [not_le]
      calc m * 2 ^ e < 16777216 * 2 ^ e := Nat.mul_lt_mul_of_pos_right hm2 hE
        _ = (8388608 * 2) * 2 ^ e := by norm_num
        _ ≤ (roundHalfEven num (den * 2 ^ s) * 2 ^ (k + 1)) * 2 ^ e :=
            Nat.mul_le_mul_right _ (Nat.mul_le_mul (by omega) hK)
        _ = roundHalfEven num (den * 2 ^ s) * (2 ^ e * 2 ^ (k + 1)) := by ring
        _ = roundHalfEven num (den * 2 ^ s) * 2 ^ s := by rw [← hps]
    have hnum : den * (8388608 * 2 ^ s) ≤ num := by
      have h2 : den * (8388608 * 2 ^ s) ≤ den * (num / den) := Nat.mul_le_mul_left _ hq23
      omega
    have hX : 0 < 2 ^ e * den := Nat.mul_pos hE hd
    have hbig : (2 * m + 1) * 2 ^ e * den < 2 * (den * (8388608 * 2 ^ s)) := by
      rw [hps]
      calc (2 * m + 1) * 2 ^ e * den = (2 * m + 1) * (2 ^ e * den) := by ring
        _ < (2 * 8388608 * 2) * (2 ^ e * den) := Nat.mul_lt_mul_of_pos_right (by omega) hX
        _ ≤ (2 * 8388608 * 2 ^ (k + 1)) * (2 ^ e * den) :=
            Nat.mul_le_mul_right _ (Nat.mul_le_mul_left _ hK)
        _ = 2 * (den * (8388608 * (2 ^ e * 2 ^ (k + 1)))) := by ring
    simp only [hl, false_iff]
    split_ifs <;> omega

theorem ofU32_exact (n : Nat) (h : n < 16777216) : ofU32 n = n * floatOne := by
  unfold ofU32
  obtain ⟨s, hr, hs⟩ := roundF32_shift (n * floatOne) 1
  rw [hr]
  simp only [Nat.div_one, Nat.one_mul] at hs ⊢
  have hF : floatOne = 2 ^ 149 := rfl
  rcases hs with ⟨h0, h1⟩ | ⟨h1, h2⟩
  · subst h0
    simp [roundHalfEven, Nat.mod_one]
  · have hlt : 2 ^ (23 + s) < 2 ^ (24 + 149) := by
      calc 2 ^ (23 + s) ≤ n * floatOne := h1
        _ < 16777216 * floatOne := Nat.mul_lt_mul_of_pos_right h (by rw [hF]; exact Nat.two_pow_pos _)
        _ = 2 ^ (24 + 149) := by rw [hF, pow_add]; norm_num
    have hs149 : s ≤ 149 := by
      have := (Nat.pow_lt_pow_iff_right (by norm_num : 1 < 2)).1 hlt
      omega
    obtain ⟨k, hk⟩ : ∃ k, 149 = k + s := ⟨149 - s, by omega⟩
    have hsplit : n * floatOne = (n * 2 ^ k) * 2 ^ s := by
      rw [hF, hk, pow_add]
      ring
    rw [hsplit, roundHalfEven_mul _ _ (Nat.two_pow_pos s)]

theorem geResult_fdiv_iff (r c m e : Nat) (hc : 0 < c) (hc2 : c < 16777216)
    (hr : r < 16777216) (hm1 : 2 ^ 23 ≤ m) (hm2 : m < 2 ^ 24) :
    geResult (m * 2 ^ e) (fdiv (ofU32 r) (ofU32 c)) = true ↔
      (if m % 2 = 0 then 2 * (r * floatOne) ≤ (2 * m + 1) * 2 ^ e * c
        else 2 * (r * floatOne) < (2 * m + 1) * 2 ^ e * c) := by
  have hF : 0 < floatOne := Nat.two_pow_pos 149
  have hcF : 0 < c * floatOne := Nat.mul_pos hc hF
  rw [ofU32_exact r hr, ofU32_exact c hc2]
  simp only [fdiv, Nat.ne_of_gt hcF, if_false, geResult, decide_eq_true_eq]
  rw [roundF32_le_iff _ _ m e hcF hm1 hm2]
  have e1 : 2 * (r * floatOne * floatOne) = (2 * (r * floatOne)) * floatOne := by ring
  have e2 : (2 * m + 1) * 2 ^ e * (c * floatOne) = ((2 * m + 1) * 2 ^ e * c) * floatOne := by ring
  rw [e1, e2]
  split_ifs
  · exact mul_le_mul_right hF
  · exact mul_lt_mul_right hF

theorem ge_f04_iff (r c : Nat) (hc : 0 < c) (hc2 : c < 3728273) (hr : r ≤ c) :
    geResult f04 (fdiv (ofU32 r) (ofU32 c)) = true ↔ 10 * r ≤ 4 * c := by
  unfold f04
  rw [geResult_fdiv_iff r c 13421773 124 hc (by omega) (by omega) (by norm_num) (by norm_num)]
  norm_num [floatOne]
  omega

theorem ge_f06_iff (r c : Nat) (hc : 0 < c) (hc2 : c < 3728273) (hr : r ≤ c) :
    geResult f06 (fdiv (ofU32 r) (ofU32 c)) = true ↔ 10 * r ≤ 6 * c := by
  unfold f06
  rw [geResult_fdiv_iff r c 10066330 125 hc (by omega) (by omega) (by norm_num) (by norm_num)]
  norm_num [floatOne]
  have hcases : c ≤ 3728270 ∨ c = 3728271 ∨ c = 3728272 := by omega
  rcases hcases with h | h | h
  · omega
  · subst h
    omega
  · subst h
    omega

theorem ge_f08_iff (r c : Nat) (hc : 0 < c) (hc2 : c < 3728273) (hr : r ≤ c) :
    geResult f08 (fdiv (ofU32 r) (ofU32 c)) = true ↔ 10 * r ≤ 8 * c := by
  unfold f08
  rw [geResult_fdiv_iff r c 13421773 125 hc (by omega) (by omega) (by norm_num) (by norm_num)]
  norm_num [floatOne]
  omega

theorem ge_one_of_le (r c : Nat) (hc : 0 < c) (hc2 : c < 3728273) (hr : r ≤ c) :
    geResult floatOne (fdiv (ofU32 r) (ofU32 c)) = true := by
  have h1 : floatOne = 8388608 * 2 ^ 126 := by norm_num [floatOne]
  rw [h1, geResult_fdiv_iff r c 8388608 126 hc (by omega) (by omega) (by norm_num) (by norm_num)]
  norm_num [floatOne]
  omega

theorem ratio_le_iff (r c k : Nat) (hc : 0 < c) :
    ((r : ℚ) / (c : ℚ) ≤ (k : ℚ) / 10) ↔ 10 * r ≤ k * c := by
  have hc' : (0 : ℚ) < (c : ℚ) := by exact_mod_cast hc
  rw [div_le_div_iff₀ hc' (by norm_num : (0 : ℚ) < 10)]
  constructor
  · intro h
    have h2 : ((r * 10 : ℕ) : ℚ) ≤ ((k * c : ℕ) : ℚ) := by push_cast; exact h
    have h3 : r * 10 ≤ k * c := by exact_mod_cast h2
    omega
  · intro h
    have h3 : r * 10 ≤ k * c := by omega
    have h2 : ((r * 10 : ℕ) : ℚ) ≤ ((k * c : ℕ) : ℚ) := by exact_mod_cast h3
    push_cast at h2
    exact h2

/-! ## The DVFS decision -/

/-- C3 (as stated, refuted): the task released at time 0 with W = r = 2236964 and
d = 3728273 has currentTimeToDeadline = 3728273 > 0 and 0.6 < phi = r / 3728273 <= 0.8,
so the least level at or above phi is 0.8; the single-precision quotient rounds down to
the float 0.6, and makeDVFSDecision asks for the level 0.6 instead. -/
theorem makeDVFSDecision_rounding_counterexample :
    (selectPhase (initialState longTaskSet)).1 = some 0 ∧
    (selectPhase (initialState longTaskSet)).2.map
        (fun t => (t.remainingExecutionTime, t.arrivalTime, t.absoluteDeadline))
      = [(2236964, 0, 3728273)] ∧
    6 * 3728273 < 10 * 2236964 ∧ 10 * 2236964 ≤ 8 * 3728273 ∧
    decidePhase 0 (initialState longTaskSet)
      = { type := PowerDecisionType.POWER_DVFS_CHANGE, newFrequencyLevel := f06 } ∧
    f06 ≠ f08 := by
  decide

/-- C3 (amended): with DPM inactive, r > 0, 0 < currentTimeToDeadline = d - (a + W - r),
r <= currentTimeToDeadline (phi <= 1.0) and currentTimeToDeadline <= 3728272,
makeDVFSDecision returns DVFS_CHANGE with new level L when L differs from the current
level and NO_CHANGE otherwise, where L is the float nearest to the least of 0.4, 0.6,
0.8, 1.0 that is at least phi = r / currentTimeToDeadline. -/
theorem makeDVFSDecision_level (task : Task) (slack : Nat) (st : PowerState) (c : Nat)
    (hdpm : st.isDPMActive = false)
    (hr : 0 < task.remainingExecutionTime)
    (hc : (task.absoluteDeadline : ℤ)
      - ((task.arrivalTime : ℤ) + (task.currentActual : ℤ) - (task.remainingExecutionTime : ℤ))
      = (c : ℤ))
    (hc0 : 0 < c) (hphi : task.remainingExecutionTime ≤ c) (hbound : c ≤ 3728272) :
    makeDVFSDecision (some task) slack st =
      (let phi : ℚ := (task.remainingExecutionTime : ℚ) / (c : ℚ)
       let L : CFloat :=
        if phi ≤ 4 / 10 then f04 else if phi ≤ 6 / 10 then f06
        else if phi ≤ 8 / 10 then f08 else floatOne
       if L ≠ st.frequencyLevel then
        { type := PowerDecisionType.POWER_DVFS_CHANGE, newFrequencyLevel := L }
       else
        { type := PowerDecisionType.POWER_NO_CHANGE, newFrequencyLevel := st.frequencyLevel }) := by
  have hctd : subU32 task.absoluteDeadline
      (subU32 (addU32 task.arrivalTime task.currentActual) task.remainingExecutionTime) = c := by
    simp only [subU32, addU32, tickModulus]
    omega
  have hreq : requiredFrequency (some task) =
      fdiv (ofU32 task.remainingExecutionTime) (ofU32 c) := by
    simp only [requiredFrequency, hr, if_true, hctd, hc0]
  have h4 := ge_f04_iff task.remainingExecutionTime c hc0 (by omega) hphi
  have h6 := ge_f06_iff task.remainingExecutionTime c hc0 (by omega) hphi
  have h8 := ge_f08_iff task.remainingExecutionTime c hc0 (by omega) hphi
  have h1 := ge_one_of_le task.remainingExecutionTime c hc0 (by omega) hphi
  have q4 := ratio_le_iff task.remainingExecutionTime c 4 hc0
  have q6 := ratio_le_iff task.remainingExecutionTime c 6 hc0
  have q8 := ratio_le_iff task.remainingExecutionTime c 8 hc0
  simp only [Nat.cast_ofNat] at q4 q6 q8
  simp only [makeDVFSDecision, hdpm, Bool.false_eq_true, if_false, hreq,
    selectedFrequencyIndex, availableFrequencyLevels, levelLoop, q4, q6, q8]
  by_cases c4 : 10 * task.remainingExecutionTime ≤ 4 * c
  · simp [h4.2 c4, c4]
  · have n4 : ¬ geResult f04 (fdiv (ofU32 task.remainingExecutionTime) (ofU32 c)) = true :=
      fun h => c4 (h4.1 h)
    by_cases c6 : 10 * task.remainingExecutionTime ≤ 6 * c
    · simp [n4, h6.2 c6, c4, c6]
    · have n6 : ¬ geResult f06 (fdiv (ofU32 task.remainingExecutionTime) (ofU32 c)) = true :=
        fun h => c6 (h6.1 h)
      by_cases c8 : 10 * task.remainingExecutionTime ≤ 8 * c
      · simp [n4, n6, h8.2 c8, c4, c6, c8]
      · have n8 : ¬ geResult f08 (fdiv (ofU32 task.remainingExecutionTime) (ofU32 c)) = true :=
          fun h => c8 (h8.1 h)
        simp [n4, n6, n8, h1, c4, c6, c8]

/-- C3 witness: scenario S2 at the release, W = r = 5, a = 0, d = 10 and f = 1.0:
phi = 0.5 and the decision is DVFS_CHANGE to the level 0.6. -/
theorem makeDVFSDecision_level_witness :
    makeDVFSDecision (some s2Task) 5 initialPowerState
      = { type := PowerDecisionType.POWER_DVFS_CHANGE, newFrequencyLevel := f06 } ∧
    makeDVFSDecision (some s2Task) 5 initialPowerState =
      (let phi : ℚ := (s2Task.remainingExecutionTime : ℚ) / ((10 : ℕ) : ℚ)
       let L : CFloat :=
        if phi ≤ 4 / 10 then f04 else if phi ≤ 6 / 10 then f06
        else if phi ≤ 8 / 10 then f08 else floatOne
       if L ≠ initialPowerState.frequencyLevel then
        { type := PowerDecisionType.POWER_DVFS_CHANGE, newFrequencyLevel := L }
       else
        { type := PowerDecisionType.POWER_NO_CHANGE,
          newFrequencyLevel := initialPowerState.frequencyLevel }) :=
  ⟨by decide,
    makeDVFSDecision_level s2Task 5 initialPowerState 10 (by decide) (by decide) (by decide)
      (by decide) (by decide) (by decide)⟩

/-- C4 (code at the failing input): in scenario S4 at time 0 the selected task has
W = r = 12, a = 0, d = 10, so phi = 12 / 10 exceeds every level; the search loop finds no
level and selectedFrequencyIndex keeps its initial value 0: the decision is DVFS_CHANGE
to the level 0.4, not the level 1.0. -/
theorem makeDVFSDecision_overload_lowest :
    (selectPhase (initialState s4TaskSet)).1 = some 0 ∧
    (selectPhase (initialState s4TaskSet)).2.map
        (fun t => (t.remainingExecutionTime, t.arrivalTime, t.absoluteDeadline))
      = [(12, 0, 10)] ∧
    (initialState s4TaskSet).currentPowerState
      = { frequencyLevel := floatOne, isDPMActive := false } ∧
    geResult floatOne (requiredFrequency ((selectPhase (initialState s4TaskSet)).2[0]?)) = false ∧
    selectedFrequencyIndex (requiredFrequency ((selectPhase (initialState s4TaskSet)).2[0]?)) = 0 ∧
    decidePhase 0 (initialState s4TaskSet)
      = { type := PowerDecisionType.POWER_DVFS_CHANGE, newFrequencyLevel := f04 } := by
  decide

/-- C5 (code at the failing input): for D = 10, W = 12, a = 0, d = 10, r = 1 the
difference d - (a + W - r) is -1; computed in TickType_t it is 4294967295 > 0, the
required frequency is 1 / 2 ^ 32 instead of 1.0, and with f = 1.0 the decision is
DVFS_CHANGE to the level 0.4.  The driver reaches this state in scenario S4 at time 11. -/
theorem makeDVFSDecision_late_wraps :
    subU32 s4LateTask.absoluteDeadline
        (subU32 (addU32 s4LateTask.arrivalTime s4LateTask.currentActual)
          s4LateTask.remainingExecutionTime) = 4294967295 ∧
    requiredFrequency (some s4LateTask) = FloatResult.fin (2 ^ 117) ∧
    makeDVFSDecision (some s4LateTask) 0 { frequencyLevel := floatOne, isDPMActive := false }
      = { type := PowerDecisionType.POWER_DVFS_CHANGE, newFrequencyLevel := f04 } ∧
    (stateAfter 0 s4TaskSet 11).map (fun s => (selectPhase s).2) = some [s4LateTask] ∧
    (stateAfter 0 s4TaskSet 11).map (fun s => s.currentPowerState)
      = some { frequencyLevel := floatOne, isDPMActive := false } ∧
    (stateAfter 0 s4TaskSet 11).map (fun s => decidePhase 0 s)
      = some { type := PowerDecisionType.POWER_DVFS_CHANGE, newFrequencyLevel := f04 } := by
  decide

/-! ## Execution of one tick -/

/-- C10 (code at the failing input): in scenario S2 at time 0 the selected task has
r = 5 and the level after the decision is 0.6; executeTask leaves
remainingExecutionTime = 4, not 4.4: the single-precision difference 5 - 0.6 is converted
back to the unsigned integer field.  The time advances by 1. -/
theorem executeTask_truncates :
    (selectPhase (initialState s2TaskSet)).2 = [s2Task] ∧
    applyPowerDecision (decidePhase 0 (initialState s2TaskSet)) initialPowerState
      = { frequencyLevel := f06, isDPMActive := false } ∧
    s2Task.state = TaskState.TASK_RUNNING ∧ s2Task.remainingExecutionTime = 5 ∧
    (executeTask s2Task { frequencyLevel := f06, isDPMActive := false } 0).1.remainingExecutionTime
      = 4 ∧
    (executeTask s2Task { frequencyLevel := f06, isDPMActive := false } 0).2 = 1 ∧
    fsub (ofU32 5) f06 = 9227469 * 2 ^ 128 ∧
    toU32 (9227469 * 2 ^ 128) = 4 := by
  decide

/-! ## Runs of the driver -/

theorem makeDPMDecision_type (a b : CFloat) (slack : Nat) (st : PowerState) :
    (makeDPMDecision a slack st).type = (makeDPMDecision b slack st).type ∧
    (makeDPMDecision a slack st).type ≠ PowerDecisionType.POWER_DVFS_CHANGE := by
  unfold makeDPMDecision
  split_ifs <;> simp

theorem schedulerTick_idle (indeterminate : CFloat) (s : SimState)
    (h : (selectPhase s).1 = none) :
    schedulerTick indeterminate s =
      (let slack := calculateSystemSlack (selectPhase s).2 s.currentTime
       let decision := makeDPMDecision indeterminate slack s.currentPowerState
       let powerState := applyPowerDecision decision s.currentPowerState
       { taskSet := checkForTaskCompletions (selectPhase s).2 (addU32 s.currentTime 1)
         currentPowerState := powerState
         stats := updateStats s.stats powerState s.currentTime
         currentTime := addU32 s.currentTime 1
         output := s.output ++ [logSchedulerState s.currentTime none powerState slack decision] }) := by
  simp only [schedulerTick, decidePhase, h, Option.bind]

theorem schedulerTick_busy (indeterminate : CFloat) (s : SimState) (i : Nat)
    (h : (selectPhase s).1 = some i) :
    schedulerTick indeterminate s =
      (let slack := calculateSystemSlack (selectPhase s).2 s.currentTime
       let decision := makeDVFSDecision ((selectPhase s).2[i]?) slack s.currentPowerState
       let powerState := applyPowerDecision decision s.currentPowerState
       { taskSet := checkForTaskCompletions
           (modifyAt (fun t => (executeTask t powerState s.currentTime).1) i (selectPhase s).2)
           (addU32 s.currentTime 1)
         currentPowerState := powerState
         stats := updateStats s.stats powerState s.currentTime
         currentTime := addU32 s.currentTime 1
         output := s.output ++
           [logSchedulerState s.currentTime ((selectPhase s).2[i]?) powerState slack decision] }) := by
  simp only [schedulerTick, decidePhase, h, Option.bind]

theorem schedulerTick_indeterminate (a b : CFloat) (s : SimState) :
    schedulerTick a s = schedulerTick b s := by
  have key : ∀ slack st, applyPowerDecision (makeDPMDecision a slack st) st
        = applyPowerDecision (makeDPMDecision b slack st) st ∧
      ∀ time task ps sl, logSchedulerState time task ps sl (makeDPMDecision a slack st)
        = logSchedulerState time task ps sl (makeDPMDecision b slack st) := by
    intro slack st
    unfold makeDPMDecision
    split_ifs <;> simp [applyPowerDecision, logSchedulerState]
  cases h : (selectPhase s).1 with
  | none =>
    rw [schedulerTick_idle a s h, schedulerTick_idle b s h]
    simp only [(key _ _).1, (key _ _).2]
  | some i => rw [schedulerTick_busy a s i h, schedulerTick_busy b s i h]

theorem stateAfter_indeterminate (a b : CFloat) (taskSet : TaskSet) (n : Nat) :
    stateAfter a taskSet n = stateAfter b taskSet n := by
  induction n with
  | zero => rfl
  | succ n ih => simp only [stateAfter, ih, schedulerTick_indeterminate a b]

theorem schedulerLoop_indeterminate (a b : CFloat) (e fuel : Nat) (s : SimState) :
    schedulerLoop a e fuel s = schedulerLoop b e fuel s := by
  induction fuel generalizing s with
  | zero => rfl
  | succ n ih => simp only [schedulerLoop, ih, schedulerTick_indeterminate a b]

theorem mainSchedulerLoop_indeterminate (a b : CFloat) (fuel : Nat) (taskSet : TaskSet) :
    mainSchedulerLoop a fuel taskSet = mainSchedulerLoop b fuel taskSet :=
  schedulerLoop_indeterminate a b _ fuel _

theorem stateAfter_invariant (P : SimState → Prop) (indeterminate : CFloat)
    (taskSet : TaskSet) (h0 : P (initialState taskSet))
    (hstep : ∀ s, P s → s.currentTime ≤ calculateSimulationEndTime taskSet →
      P (schedulerTick indeterminate s)) :
    ∀ n s, stateAfter indeterminate taskSet n = some s → P s := by
  intro n
  induction n with
  | zero =>
    intro s hs
    simp only [stateAfter, Option.some.injEq] at hs
    exact hs ▸ h0
  | succ n ih =>
    intro s hs
    simp only [stateAfter] at hs
    cases hprev : stateAfter indeterminate taskSet n with
    | none => simp [hprev] at hs
    | some s0 =>
      simp only [hprev] at hs
      split at hs
      · rename_i hle
        simp only [Option.some.injEq] at hs
        exact hs ▸ hstep s0 (ih s0 hprev) hle
      · simp at hs

theorem schedulerLoop_invariant (P : SimState → Prop) (indeterminate : CFloat) (e : Nat)
    (hstep : ∀ s, P s → s.currentTime ≤ e → P (schedulerTick indeterminate s)) :
    ∀ fuel s0 s, P s0 → schedulerLoop indeterminate e fuel s0 = some s →
      P s ∧ ¬ s.currentTime ≤ e := by
  intro fuel
  induction fuel with
  | zero =>
    intro s0 s _ hs
    simp [schedulerLoop] at hs
  | succ n ih =>
    intro s0 s h0 hs
    simp only [schedulerLoop] at hs
    split at hs
    · rename_i hle
      exact ih _ s (hstep s0 h0 hle) hs
    · rename_i hle
      simp only [Option.some.injEq] at hs
      exact hs ▸ ⟨h0, hle⟩

theorem updateStats_fields (stats : SchedulerStats) (powerState : PowerState) (t : Nat) :
    (updateStats stats powerState t).totalExecutionTime = addU32 t 1 ∧
    (updateStats stats powerState t).dvfsTransitions = stats.dvfsTransitions ∧
    (updateStats stats powerState t).dpmTransitions = stats.dpmTransitions := by
  unfold updateStats
  simp only
  split_ifs <;> simp

theorem schedulerTick_fields (indeterminate : CFloat) (s : SimState) :
    (schedulerTick indeterminate s).currentTime = addU32 s.currentTime 1 ∧
    (schedulerTick indeterminate s).output.length = s.output.length + 1 ∧
    (schedulerTick indeterminate s).stats.totalExecutionTime = addU32 s.currentTime 1 ∧
    (schedulerTick indeterminate s).stats.dvfsTransitions = s.stats.dvfsTransitions ∧
    (schedulerTick indeterminate s).stats.dpmTransitions = s.stats.dpmTransitions := by
  refine ⟨rfl, ?_, ?_, ?_, ?_⟩
  · simp [schedulerTick]
  · exact (updateStats_fields _ _ _).1
  · exact (updateStats_fields _ _ _).2.1
  · exact (updateStats_fields _ _ _).2.2

theorem schedulerLoop_terminates (indeterminate : CFloat) (e : Nat) (he : e < 4294967295) :
    ∀ d s0, s0.currentTime + d = e + 1 → s0.output.length = s0.currentTime →
      s0.stats.totalExecutionTime = s0.currentTime →
      ∃ s, s.currentTime = e + 1 ∧ s.output.length = e + 1 ∧
        s.stats.totalExecutionTime = e + 1 ∧
        ∀ fuel, d < fuel → schedulerLoop indeterminate e fuel s0 = some s := by
  intro d
  induction d with
  | zero =>
    intro s0 hc ho ht
    refine ⟨s0, by omega, by omega, by omega, ?_⟩
    intro fuel hf
    obtain ⟨f, rfl⟩ : ∃ f, fuel = f + 1 := ⟨fuel - 1, by omega⟩
    have hn : ¬ s0.currentTime ≤ e := by omega
    simp only [schedulerLoop, hn, if_false]
  | succ d ih =>
    intro s0 hc ho ht
    obtain ⟨h1, h2, h3, _, _⟩ := schedulerTick_fields indeterminate s0
    have hadd : addU32 s0.currentTime 1 = s0.currentTime + 1 := by
      simp only [addU32, tickModulus]
      omega
    obtain ⟨s, hs1, hs2, hs3, hs4⟩ := ih (schedulerTick indeterminate s0)
      (by rw [h1, hadd]; omega) (by rw [h2, h1, hadd, ho]) (by rw [h3, h1])
    refine ⟨s, hs1, hs2, hs3, ?_⟩
    intro fuel hf
    obtain ⟨f, rfl⟩ : ∃ f, fuel = f + 1 := ⟨fuel - 1, by omega⟩
    have hle : s0.currentTime ≤ e := by omega
    simp only [schedulerLoop, hle, if_true]
    exact hs4 f (by omega)

theorem mainSchedulerLoop_terminates (indeterminate : CFloat) (taskSet : TaskSet)
    (he : calculateSimulationEndTime taskSet < 4294967295) :
    ∃ s, s.currentTime = calculateSimulationEndTime taskSet + 1 ∧
      s.output.length = calculateSimulationEndTime taskSet + 1 ∧
      s.stats.totalExecutionTime = calculateSimulationEndTime taskSet + 1 ∧
      ∀ fuel, calculateSimulationEndTime taskSet + 1 < fuel →
        mainSchedulerLoop indeterminate fuel taskSet = some s :=
  schedulerLoop_terminates indeterminate _ he _ (initialState taskSet) (by simp [initialState])
    rfl rfl

theorem schedulerLoop_never_ends (indeterminate : CFloat) :
    ∀ fuel s, s.currentTime < 4294967296 →
      schedulerLoop indeterminate 4294967295 fuel s = none := by
  intro fuel
  induction fuel with
  | zero => intro s _; rfl
  | succ n ih =>
    intro s hs
    have hle : s.currentTime ≤ 4294967295 := by omega
    simp only [schedulerLoop, hle, if_true]
    apply ih
    rw [(schedulerTick_fields indeterminate s).1]
    simp only [addU32, tickModulus]
    omega

/-! ## System slack with a late task -/

/-- C11 (code at the failing input): in scenario S4 at time 0 the only READY or
RUNNING task has d = 10 and r = 12, so d - t - r = -2; calculateSystemSlack computes it
in TickType_t and returns 4294967294.  With a second READY task of slack 8 beside it, the
function returns 8: the wrapped value of the late task is not the minimum. -/
theorem calculateSystemSlack_late_wraps :
    (selectPhase (initialState s4TaskSet)).2.map
        (fun t => (t.state, t.absoluteDeadline, t.remainingExecutionTime))
      = [(TaskState.TASK_RUNNING, 10, 12)] ∧
    calculateSystemSlack (selectPhase (initialState s4TaskSet)).2 0 = 4294967294 ∧
    (selectPhase (initialState s4MixedTaskSet)).2.map
        (fun t => (t.state, t.absoluteDeadline, t.remainingExecutionTime))
      = [(TaskState.TASK_RUNNING, 10, 12), (TaskState.TASK_READY, 10, 2)] ∧
    calculateSystemSlack (selectPhase (initialState s4MixedTaskSet)).2 0 = 8 := by
  decide

/-! ## Transition counters -/

/-- C15 (code at the failing input): in scenario S2 the decision of the first tick is
a DVFS_CHANGE, and after that tick dvfsTransitions is 0; the run ends after 31 ticks with
three DVFS_CHANGE decisions in its trace and dvfsTransitions = 0.  The run of idleTaskSet
has applied a DPM_ON decision after 11 ticks and dpmTransitions is 0. -/
theorem transition_counters_not_counted :
    (stateAfter 0 s2TaskSet 1).map (fun s => s.output.map (fun r => r.decision))
      = some [PowerDecisionType.POWER_DVFS_CHANGE] ∧
    (stateAfter 0 s2TaskSet 1).map (fun s => s.stats.dvfsTransitions) = some 0 ∧
    (mainSchedulerLoop 0 32 s2TaskSet).map
        (fun s => decisionCount PowerDecisionType.POWER_DVFS_CHANGE s.output) = some 3 ∧
    (mainSchedulerLoop 0 32 s2TaskSet).map (fun s => s.stats.dvfsTransitions) = some 0 ∧
    (stateAfter 0 idleTaskSet 11).map
        (fun s => decisionCount PowerDecisionType.POWER_DPM_ON s.output) = some 1 ∧
    (stateAfter 0 idleTaskSet 11).map (fun s => s.stats.dpmTransitions) = some 0 := by
  refine ⟨by decide, by decide, by decide, by decide, by decide, by decide⟩

/-! ## Termination and the length of the trace -/

/-- C16 (as stated, refuted): for the largest period 1431655765 the end time
3 * 1431655765 = 4294967295 does not overflow, and the loop condition
currentTime <= 4294967295 holds for every TickType_t value: the loop never ends. -/
theorem mainSchedulerLoop_never_ends_counterexample :
    maxPeriodLoop maxEndTaskSet 0 * 3 < 4294967296 ∧
    calculateSimulationEndTime maxEndTaskSet = 4294967295 ∧
    ∀ indeterminate fuel, mainSchedulerLoop indeterminate fuel maxEndTaskSet = none := by
  refine ⟨by decide, by decide, ?_⟩
  intro indeterminate fuel
  have he : calculateSimulationEndTime maxEndTaskSet = 4294967295 := by decide
  unfold mainSchedulerLoop
  rw [he]
  exact schedulerLoop_never_ends indeterminate fuel _ (by decide)

/-- C16 (amended): for every task set whose end time T_end = 3 * (largest period) is
below portMAX_DELAY = 4294967295, the driver loop terminates (with any fuel above
T_end + 1), in a state whose trace has T_end + 1 records, and this number equals the
final stats.totalExecutionTime. -/
theorem mainSchedulerLoop_trace_length (indeterminate : CFloat) (taskSet : TaskSet)
    (h : maxPeriodLoop taskSet 0 * 3 < 4294967295) :
    ∃ s, (∀ fuel, maxPeriodLoop taskSet 0 * 3 + 1 < fuel →
        mainSchedulerLoop indeterminate fuel taskSet = some s) ∧
      s.output.length = s.stats.totalExecutionTime ∧
      s.output.length = maxPeriodLoop taskSet 0 * 3 + 1 := by
  have he : calculateSimulationEndTime taskSet = maxPeriodLoop taskSet 0 * 3 := by
    simp only [calculateSimulationEndTime, tickModulus]
    omega
  obtain ⟨s, _, h2, h3, h4⟩ := mainSchedulerLoop_terminates indeterminate taskSet (by omega)
  rw [he] at h2 h3 h4
  exact ⟨s, h4, by omega, h2⟩

/-- C16 witness: scenario S1, whose end time is 30. -/
theorem mainSchedulerLoop_trace_length_witness :
    maxPeriodLoop s1TaskSet 0 * 3 = 30 ∧
    ∃ s, (∀ fuel, maxPeriodLoop s1TaskSet 0 * 3 + 1 < fuel →
        mainSchedulerLoop 0 fuel s1TaskSet = some s) ∧
      s.output.length = s.stats.totalExecutionTime ∧
      s.output.length = maxPeriodLoop s1TaskSet 0 * 3 + 1 :=
  ⟨by decide, mainSchedulerLoop_trace_length 0 s1TaskSet (by decide)⟩

/-- C17 (as stated, refuted): in scenario S1 the end time is 30 and the loop runs
while currentTime <= 30, so the run emits 31 records, not 30. -/
theorem s1_trace_length_counterexample :
    calculateSimulationEndTime s1TaskSet = 30 ∧
    (mainSchedulerLoop 0 32 s1TaskSet).map (fun s => s.output.length) = some 31 ∧
    (mainSchedulerLoop 0 32 s1TaskSet).map (fun s => s.output.length) ≠ some 30 := by
  decide

/-- C17 (amended): in scenario S1 calculateSimulationEndTime returns 30 and the run
emits exactly 31 tick records, for the times 0, 1, ..., 30. -/
theorem s1_trace_length (indeterminate : CFloat) (k : Nat) :
    calculateSimulationEndTime s1TaskSet = 30 ∧
    (mainSchedulerLoop indeterminate (32 + k) s1TaskSet).map (fun s => s.output.length)
      = some 31 ∧
    (mainSchedulerLoop indeterminate (32 + k) s1TaskSet).map
        (fun s => s.output.map (fun r => r.time)) = some (List.range 31) := by
  have he : calculateSimulationEndTime s1TaskSet = 30 := by decide
  obtain ⟨s, _, _, _, h4⟩ := mainSchedulerLoop_terminates 0 s1TaskSet (by rw [he]; decide)
  have hk : mainSchedulerLoop indeterminate (32 + k) s1TaskSet
      = mainSchedulerLoop 0 32 s1TaskSet := by
    rw [mainSchedulerLoop_indeterminate indeterminate 0, h4 (32 + k) (by rw [he]; omega),
      h4 32 (by rw [he]; omega)]
  rw [hk]
  decide

/-! ## Scenarios S2 and S4 on the driver -/

/-- C18 (code at the failing input): in scenario S2 the instance released at time 0
has one tick of work left after 4 ticks and is reaped by the completion sweep at time 5
(completionTime = 5); the ticks 5 to 9 run no task.  The same truncation as in
executeTask_truncates: each tick at a level below 1.0 consumes a whole unit of work. -/
theorem s2_completes_after_five :
    (stateAfter 0 s2TaskSet 4).map
        (fun s => s.taskSet.map (fun t => (t.state, t.remainingExecutionTime)))
      = some [(TaskState.TASK_RUNNING, 1)] ∧
    (stateAfter 0 s2TaskSet 5).map
        (fun s => s.taskSet.map (fun t => (t.state, t.completionTime, t.instancesCompleted)))
      = some [(TaskState.TASK_IDLE, 5, 1)] ∧
    (stateAfter 0 s2TaskSet 5).map (fun s => s.currentTime) = some 5 ∧
    (stateAfter 0 s2TaskSet 10).map
        (fun s => (s.output.map (fun r => r.task.isSome)))
      = some [true, true, true, true, true, false, false, false, false, false] := by
  decide

/-- C19: in scenario S4 the first instance is still RUNNING at times 10 and 11, past
its deadline 10, with no deadline miss counted; the sweep at time 12 completes it with
completionTime = 12 and deadlineMisses = 1; the release at time 12 makes the task READY
again with deadline 22; the loop ends after the tick of time 30 = T_end. -/
theorem s4_deadline_miss (indeterminate : CFloat) :
    calculateSimulationEndTime s4TaskSet = 30 ∧
    (stateAfter indeterminate s4TaskSet 10).map (fun s => s.currentTime) = some 10 ∧
    (stateAfter indeterminate s4TaskSet 10).map
        (fun s => s.taskSet.map
          (fun t => (t.state, t.absoluteDeadline, t.remainingExecutionTime, t.deadlineMisses)))
      = some [(TaskState.TASK_RUNNING, 10, 2, 0)] ∧
    (stateAfter indeterminate s4TaskSet 11).map (fun s => s.currentTime) = some 11 ∧
    (stateAfter indeterminate s4TaskSet 11).map
        (fun s => s.taskSet.map
          (fun t => (t.state, t.absoluteDeadline, t.remainingExecutionTime, t.deadlineMisses)))
      = some [(TaskState.TASK_RUNNING, 10, 1, 0)] ∧
    (stateAfter indeterminate s4TaskSet 12).map (fun s => s.currentTime) = some 12 ∧
    (stateAfter indeterminate s4TaskSet 12).map
        (fun s => s.taskSet.map
          (fun t => (t.state, t.completionTime, t.deadlineMisses, t.instancesCompleted)))
      = some [(TaskState.TASK_IDLE, 12, 1, 1)] ∧
    (stateAfter indeterminate s4TaskSet 12).map
        (fun s => (checkForTaskArrivals s.taskSet s.currentTime).map
          (fun t => (t.state, t.arrivalTime, t.absoluteDeadline, t.remainingExecutionTime)))
      = some [(TaskState.TASK_READY, 12, 22, 10)] ∧
    (mainSchedulerLoop indeterminate 32 s4TaskSet).map (fun s => s.currentTime) = some 31 ∧
    (mainSchedulerLoop indeterminate 32 s4TaskSet).map
        (fun s => s.output.map (fun r => r.time)) = some (List.range 31) := by
  simp only [stateAfter_indeterminate indeterminate 0,
    mainSchedulerLoop_indeterminate indeterminate 0]
  refine ⟨by decide, by decide, by decide, by decide, by decide, by decide, by decide,
    by decide, by decide, by decide⟩

/-! ## System slack with no released task -/

theorem slackLoop_inactive (t : Nat) (l : List Task) (acc : Nat) (b : Bool)
    (h : ∀ task ∈ l, task.isActive = false) : slackLoop t l acc b = (acc, b) := by
  induction l generalizing acc b with
  | nil => rfl
  | cons x xs ih =>
    have hx : ¬ x.isActive = true := by simp [h x (List.mem_cons_self _ _)]
    rw [slackLoop, if_neg hx]
    exact ih acc b (fun task ht => h task (List.mem_cons_of_mem _ ht))

theorem arrivalLoop_le_acc (t : Nat) (l : List Task) (acc : Nat) :
    arrivalLoop t l acc ≤ acc := by
  induction l generalizing acc with
  | nil => exact le_refl _
  | cons x xs ih =>
    rw [arrivalLoop]
    split
    · by_cases hlt : subU32 x.nextArrivalTime t < acc
      · simp only [hlt, if_true]
        have := ih (subU32 x.nextArrivalTime t)
        omega
      · simp only [hlt, if_false]
        exact ih acc
    · exact ih acc

theorem arrivalLoop_le (t : Nat) (l : List Task) (acc : Nat) (task : Task) (hm : task ∈ l)
    (ht : t < task.nextArrivalTime) : arrivalLoop t l acc ≤ subU32 task.nextArrivalTime t := by
  induction l generalizing acc with
  | nil => simp at hm
  | cons x xs ih =>
    rw [arrivalLoop]
    rcases List.mem_cons.1 hm with rfl | hm2
    · rw [if_pos ht]
      by_cases hlt : subU32 task.nextArrivalTime t < acc
      · simp only [hlt, if_true]
        exact arrivalLoop_le_acc t xs _
      · simp only [hlt, if_false]
        have := arrivalLoop_le_acc t xs acc
        omega
    · split
      · exact ih _ hm2
      · exact ih _ hm2

theorem arrivalLoop_attained (t : Nat) (l : List Task) (acc : Nat) :
    arrivalLoop t l acc = acc ∨
      ∃ task ∈ l, t < task.nextArrivalTime ∧
        arrivalLoop t l acc = subU32 task.nextArrivalTime t := by
  induction l generalizing acc with
  | nil => exact Or.inl rfl
  | cons x xs ih =>
    rw [arrivalLoop]
    split
    · rename_i hx
      by_cases hlt : subU32 x.nextArrivalTime t < acc
      · simp only [hlt, if_true]
        rcases ih (subU32 x.nextArrivalTime t) with h | ⟨task, hm, ht, he⟩
        · exact Or.inr ⟨x, List.mem_cons_self _ _, hx, h⟩
        · exact Or.inr ⟨task, List.mem_cons_of_mem _ hm, ht, he⟩
      · simp only [hlt, if_false]
        rcases ih acc with h | ⟨task, hm, ht, he⟩
        · exact Or.inl h
        · exact Or.inr ⟨task, List.mem_cons_of_mem _ hm, ht, he⟩
    · rcases ih acc with h | ⟨task, hm, ht, he⟩
      · exact Or.inl h
      · exact Or.inr ⟨task, List.mem_cons_of_mem _ hm, ht, he⟩

theorem subU32_of_lt (a b : Nat) (ha : a < 4294967296) (hb : b < a) : subU32 a b = a - b := by
  simp only [subU32, tickModulus]
  omega

theorem calculateSystemSlack_inactive (taskSet : TaskSet) (t : Nat)
    (hidle : ∀ task ∈ taskSet, task.isActive = false) :
    calculateSystemSlack taskSet t = arrivalLoop t taskSet portMAX_DELAY := by
  simp [calculateSystemSlack, slackLoop_inactive t taskSet _ _ hidle]

/-- C12: for a task set with no READY or RUNNING task (next arrival times being
TickType_t values), calculateSystemSlack returns portMAX_DELAY when no task has
nextArrivalTime > t, in particular for the empty task set, and otherwise the minimum of
nextArrivalTime - t over the tasks with nextArrivalTime > t: a value attained by one of
them and at most that of each of them. -/
theorem calculateSystemSlack_idle (taskSet : TaskSet) (t : Nat)
    (hidle : ∀ task ∈ taskSet, task.isActive = false)
    (hrange : ∀ task ∈ taskSet, task.nextArrivalTime < 4294967296) :
    ((∀ task ∈ taskSet, ¬ t < task.nextArrivalTime) →
      calculateSystemSlack taskSet t = portMAX_DELAY) ∧
    ((∃ task ∈ taskSet, t < task.nextArrivalTime) →
      (∃ task ∈ taskSet, t < task.nextArrivalTime ∧
        calculateSystemSlack taskSet t = task.nextArrivalTime - t) ∧
      ∀ task ∈ taskSet, t < task.nextArrivalTime →
        calculateSystemSlack taskSet t ≤ task.nextArrivalTime - t) ∧
    calculateSystemSlack [] t = portMAX_DELAY ∧ portMAX_DELAY = 4294967295 := by
  rw [calculateSystemSlack_inactive taskSet t hidle]
  have hle : ∀ task ∈ taskSet, t < task.nextArrivalTime →
      arrivalLoop t taskSet portMAX_DELAY ≤ task.nextArrivalTime - t := by
    intro task hm ht
    rw [← subU32_of_lt _ _ (hrange task hm) ht]
    exact arrivalLoop_le t taskSet _ task hm ht
  refine ⟨?_, ?_, rfl, rfl⟩
  · intro hnone
    rcases arrivalLoop_attained t taskSet portMAX_DELAY with h | ⟨task, hm, ht, _⟩
    · exact h
    · exact absurd ht (hnone task hm)
  · rintro ⟨task0, hm0, ht0⟩
    refine ⟨?_, hle⟩
    rcases arrivalLoop_attained t taskSet portMAX_DELAY with h | ⟨task, hm, ht, he⟩
    · refine ⟨task0, hm0, ht0, ?_⟩
      have h1 := hle task0 hm0 ht0
      have h2 := hrange task0 hm0
      rw [h] at h1 ⊢
      simp only [portMAX_DELAY] at h1 ⊢
      omega
    · exact ⟨task, hm, ht, by rw [he, subU32_of_lt _ _ (hrange task hm) ht]⟩

/-- C12 witness: one IDLE task with next arrival at 50, at time 30: the slack is 20. -/
theorem calculateSystemSlack_idle_witness :
    calculateSystemSlack [waitingTask] 30 = 20 ∧
    ((∃ task ∈ [waitingTask], 30 < task.nextArrivalTime) →
      (∃ task ∈ [waitingTask], 30 < task.nextArrivalTime ∧
        calculateSystemSlack [waitingTask] 30 = task.nextArrivalTime - 30) ∧
      ∀ task ∈ [waitingTask], 30 < task.nextArrivalTime →
        calculateSystemSlack [waitingTask] 30 ≤ task.nextArrivalTime - 30) :=
  ⟨by decide,
    (calculateSystemSlack_idle [waitingTask] 30 (by decide) (by decide)).2.1⟩

/-! ## How one tick changes the tasks -/

theorem mem_modifyAt {α : Type} (f : α → α) (i : Nat) (l : List α) (x : α)
    (h : x ∈ modifyAt f i l) : x ∈ l ∨ ∃ y, y ∈ l ∧ x = f y := by
  induction l generalizing i with
  | nil => simp [modifyAt] at h
  | cons z zs ih =>
    cases i with
    | zero =>
      simp only [modifyAt, List.mem_cons] at h
      rcases h with h | h
      · exact Or.inr ⟨z, List.mem_cons_self _ _, h⟩
      · exact Or.inl (List.mem_cons_of_mem _ h)
    | succ i =>
      simp only [modifyAt, List.mem_cons] at h
      rcases h with h | h
      · exact Or.inl (h ▸ List.mem_cons_self _ _)
      · rcases ih i h with h1 | ⟨y, hy, hxy⟩
        · exact Or.inl (List.mem_cons_of_mem _ h1)
        · exact Or.inr ⟨y, List.mem_cons_of_mem _ hy, hxy⟩

theorem edfLoop_eq_none (l : List Task) (e : Nat) (h : edfLoop l 0 none e = none) :
    ∀ t ∈ l, t.isActive = true → e ≤ t.absoluteDeadline := by
  intro t ht hact
  by_contra hlt
  obtain ⟨j, u, _, _, _, hres, _⟩ := edfLoop_candidate l 0 none e ⟨t, ht, hact, by omega⟩
  rw [hres] at h
  exact Option.noConfusion h

theorem edfLoop_eq_some (l : List Task) (e i : Nat) (h : edfLoop l 0 none e = some i) :
    ∃ t, l[i]? = some t ∧ t.isActive = true ∧ t.absoluteDeadline < e := by
  by_cases hc : ∃ t ∈ l, t.isActive = true ∧ t.absoluteDeadline < e
  · obtain ⟨j, u, hj, hact, hlt, hres, _⟩ := edfLoop_candidate l 0 none e hc
    rw [hres] at h
    have hij : j = i := by
      have := Option.some.inj h
      omega
    subst hij
    exact ⟨u, hj, hact, hlt⟩
  · have hn : ∀ t ∈ l, t.isActive = true → e ≤ t.absoluteDeadline := by
      intro t ht hact
      by_contra hlt
      exact hc ⟨t, ht, hact, by omega⟩
    rw [edfLoop_no_candidate l 0 none e hn] at h
    exact Option.noConfusion h

theorem getHighestPriorityTask_none (l : TaskSet) (h : (getHighestPriorityTask l).1 = none) :
    (getHighestPriorityTask l).2 = l ∧
      ∀ t ∈ l, t.isActive = true → portMAX_DELAY ≤ t.absoluteDeadline := by
  unfold getHighestPriorityTask at h ⊢
  cases he : edfLoop l 0 none portMAX_DELAY with
  | none => exact ⟨rfl, edfLoop_eq_none l _ he⟩
  | some i => simp [he] at h

theorem getHighestPriorityTask_some (l : TaskSet) (i : Nat)
    (h : (getHighestPriorityTask l).1 = some i) :
    (∃ t, l[i]? = some t ∧ t.isActive = true ∧ t.absoluteDeadline < portMAX_DELAY) ∧
      (getHighestPriorityTask l).2 = modifyAt markRunning i l := by
  unfold getHighestPriorityTask at h ⊢
  cases he : edfLoop l 0 none portMAX_DELAY with
  | none => simp [he] at h
  | some j =>
    simp only [he, Option.some.injEq] at h
    subst h
    exact ⟨edfLoop_eq_some l _ j he, rfl⟩

theorem getHighestPriorityTask_mem (l : TaskSet) (x : Task)
    (h : x ∈ (getHighestPriorityTask l).2) :
    x ∈ l ∨ ∃ y ∈ l, y.isActive = true ∧ y.absoluteDeadline < portMAX_DELAY ∧
      x = markRunning y := by
  cases hs : (getHighestPriorityTask l).1 with
  | none =>
    rw [(getHighestPriorityTask_none l hs).1] at h
    exact Or.inl h
  | some i =>
    obtain ⟨⟨t, hi, hact, hlt⟩, h2⟩ := getHighestPriorityTask_some l i hs
    rw [h2] at h
    rw [modifyAt_eq_set markRunning l i t hi] at h
    rcases List.mem_or_eq_of_mem_set h with h3 | h3
    · exact Or.inl h3
    · exact Or.inr ⟨t, List.getElem?_mem hi, hact, hlt, h3⟩

theorem selectPhase_mem (s : SimState) (x : Task) (h : x ∈ (selectPhase s).2) :
    ∃ y ∈ s.taskSet, x = arriveTask s.currentTime y ∨
      (x = markRunning (arriveTask s.currentTime y) ∧
        (arriveTask s.currentTime y).isActive = true ∧
        (arriveTask s.currentTime y).absoluteDeadline < portMAX_DELAY) := by
  unfold selectPhase at h
  rcases getHighestPriorityTask_mem _ x h with h1 | ⟨a, ha, hact, hlt, hx⟩
  · simp only [checkForTaskArrivals, List.mem_map] at h1
    obtain ⟨y, hy, rfl⟩ := h1
    exact ⟨y, hy, Or.inl rfl⟩
  · simp only [checkForTaskArrivals, List.mem_map] at ha
    obtain ⟨y, hy, rfl⟩ := ha
    exact ⟨y, hy, Or.inr ⟨hx, hact, hlt⟩⟩

theorem schedulerTick_taskSet_mem (indeterminate : CFloat) (s : SimState) (x : Task)
    (h : x ∈ (schedulerTick indeterminate s).taskSet) :
    ∃ y ∈ (selectPhase s).2, x = completeTask (addU32 s.currentTime 1) y ∨
      ∃ ps, x = completeTask (addU32 s.currentTime 1) (executeTask y ps s.currentTime).1 := by
  cases hs : (selectPhase s).1 with
  | none =>
    rw [schedulerTick_idle indeterminate s hs] at h
    simp only [checkForTaskCompletions, List.mem_map] at h
    obtain ⟨y, hy, rfl⟩ := h
    exact ⟨y, hy, Or.inl rfl⟩
  | some i =>
    rw [schedulerTick_busy indeterminate s i hs] at h
    simp only [checkForTaskCompletions, List.mem_map] at h
    obtain ⟨z, hz, rfl⟩ := h
    rcases mem_modifyAt _ i _ z hz with h1 | ⟨y, hy, rfl⟩
    · exact ⟨z, h1, Or.inl rfl⟩
    · exact ⟨y, hy, Or.inr ⟨_, rfl⟩⟩

theorem arriveTask_cases (t : Nat) (y : Task) :
    (arriveTask t y = y ∧ ¬ (y.nextArrivalTime ≤ t ∧ y.state = TaskState.TASK_IDLE)) ∨
    ((y.nextArrivalTime ≤ t ∧ y.state = TaskState.TASK_IDLE) ∧
      (arriveTask t y).state = TaskState.TASK_READY ∧
      (arriveTask t y).absoluteDeadline = addU32 t y.relativeDeadline ∧
      (arriveTask t y).nextArrivalTime = addU32 y.nextArrivalTime y.period ∧
      (arriveTask t y).relativeDeadline = y.relativeDeadline) := by
  unfold arriveTask
  by_cases hc : y.nextArrivalTime ≤ t ∧ y.state = TaskState.TASK_IDLE
  · right
    rw [if_pos hc]
    exact ⟨hc, rfl, rfl, rfl, rfl⟩
  · left
    rw [if_neg hc]
    exact ⟨rfl, hc⟩

theorem completeTask_cases (t : Nat) (y : Task) :
    completeTask t y = y ∨
    (y.state = TaskState.TASK_RUNNING ∧
      (completeTask t y).state = TaskState.TASK_IDLE ∧
      (completeTask t y).absoluteDeadline = y.absoluteDeadline ∧
      (completeTask t y).nextArrivalTime = y.nextArrivalTime ∧
      (completeTask t y).relativeDeadline = y.relativeDeadline) := by
  unfold completeTask
  by_cases hc : y.state = TaskState.TASK_RUNNING ∧ y.remainingExecutionTime ≤ 0
  · right
    rw [if_pos hc]
    exact ⟨hc.1, rfl, rfl, rfl, rfl⟩
  · left
    rw [if_neg hc]

theorem executeTask_frame (y : Task) (ps : PowerState) (t : Nat) :
    (executeTask y ps t).1.state = y.state ∧
    (executeTask y ps t).1.absoluteDeadline = y.absoluteDeadline ∧
    (executeTask y ps t).1.nextArrivalTime = y.nextArrivalTime ∧
    (executeTask y ps t).1.relativeDeadline = y.relativeDeadline := by
  unfold executeTask
  simp only
  split_ifs <;> simp

theorem markRunning_frame (y : Task) :
    (markRunning y).absoluteDeadline = y.absoluteDeadline ∧
    (markRunning y).nextArrivalTime = y.nextArrivalTime ∧
    (markRunning y).relativeDeadline = y.relativeDeadline ∧
    ((markRunning y).state = TaskState.TASK_IDLE → y.state = TaskState.TASK_IDLE) ∧
    (y.isActive = true → (markRunning y).isActive = true) := by
  unfold markRunning
  split_ifs with h <;> simp [Task.isActive, h]

theorem makeDVFSDecision_wakes (task : Option Task) (slack : Nat) (st : PowerState) :
    (applyPowerDecision (makeDVFSDecision task slack st) st).isDPMActive = false := by
  unfold makeDVFSDecision
  cases hb : st.isDPMActive
  · simp only [Bool.false_eq_true, if_false]
    split_ifs <;> simp [applyPowerDecision, hb]
  · simp [applyPowerDecision]

theorem makeDPMDecision_sleeps (indeterminate : CFloat) (slack : Nat) (st : PowerState)
    (h : (applyPowerDecision (makeDPMDecision indeterminate slack st) st).isDPMActive = true) :
    20 < slack := by
  by_contra hle
  have h1 : ¬ DPM_THRESHOLD < slack := by simpa [DPM_THRESHOLD] using hle
  have h2 : slack ≤ DPM_THRESHOLD := by simp only [DPM_THRESHOLD]; omega
  unfold makeDPMDecision at h
  cases hb : st.isDPMActive <;> simp [h1, h2, hb, applyPowerDecision] at h

/-! ## Power-down ticks run no task -/

theorem running_below_max_select (s : SimState)
    (h : ∀ task ∈ s.taskSet, task.state = TaskState.TASK_RUNNING →
      task.absoluteDeadline < portMAX_DELAY) :
    ∀ task ∈ (selectPhase s).2, task.state = TaskState.TASK_RUNNING →
      task.absoluteDeadline < portMAX_DELAY := by
  intro x hx hrun
  obtain ⟨y, hy, h1 | ⟨h1, _, hlt⟩⟩ := selectPhase_mem s x hx
  · rcases arriveTask_cases s.currentTime y with ⟨he, _⟩ | ⟨_, hst, _⟩
    · rw [h1, he] at hrun ⊢
      exact h y hy hrun
    · rw [h1, hst] at hrun
      exact absurd hrun (by decide)
  · rw [h1, (markRunning_frame _).1]
    exact hlt

theorem running_below_max_tick (indeterminate : CFloat) (s : SimState)
    (h : ∀ task ∈ s.taskSet, task.state = TaskState.TASK_RUNNING →
      task.absoluteDeadline < portMAX_DELAY) :
    ∀ task ∈ (schedulerTick indeterminate s).taskSet, task.state = TaskState.TASK_RUNNING →
      task.absoluteDeadline < portMAX_DELAY := by
  intro x hx hrun
  have hsel := running_below_max_select s h
  obtain ⟨y, hy, h1 | ⟨ps, h1⟩⟩ := schedulerTick_taskSet_mem indeterminate s x hx
  · rcases completeTask_cases (addU32 s.currentTime 1) y with he | ⟨_, hst, _⟩
    · rw [h1, he] at hrun ⊢
      exact hsel y hy hrun
    · rw [h1, hst] at hrun
      exact absurd hrun (by decide)
  · obtain ⟨e1, e2, _, _⟩ := executeTask_frame y ps s.currentTime
    rcases completeTask_cases (addU32 s.currentTime 1) (executeTask y ps s.currentTime).1
      with he | ⟨_, hst, _⟩
    · rw [h1, he, e1] at hrun
      rw [h1, he, e2]
      exact hsel y hy hrun
    · rw [h1, hst] at hrun
      exact absurd hrun (by decide)

theorem idle_tick_no_running (indeterminate : CFloat) (s : SimState)
    (h : ∀ task ∈ s.taskSet, task.state = TaskState.TASK_RUNNING →
      task.absoluteDeadline < portMAX_DELAY)
    (hidle : (selectPhase s).1 = none) :
    (∀ task ∈ (selectPhase s).2, task.state ≠ TaskState.TASK_RUNNING) ∧
    ∀ task ∈ (schedulerTick indeterminate s).taskSet, task.state ≠ TaskState.TASK_RUNNING := by
  have hsel := running_below_max_select s h
  have hnone := (getHighestPriorityTask_none _ hidle).2
  have h1 : ∀ task ∈ (selectPhase s).2, task.state ≠ TaskState.TASK_RUNNING := by
    intro x hx hrun
    have hlt := hsel x hx hrun
    have hx' : x ∈ checkForTaskArrivals s.taskSet s.currentTime := by
      have := (getHighestPriorityTask_none _ hidle).1
      unfold selectPhase at hx
      rw [this] at hx
      exact hx
    have := hnone x hx' (by simp [Task.isActive, hrun])
    omega
  refine ⟨h1, ?_⟩
  intro x hx hrun
  rw [schedulerTick_idle indeterminate s hidle] at hx
  simp only [checkForTaskCompletions, List.mem_map] at hx
  obtain ⟨y, hy, rfl⟩ := hx
  rcases completeTask_cases (addU32 s.currentTime 1) y with he | ⟨_, hst, _⟩
  · rw [he] at hrun
    exact h1 y hy hrun
  · rw [hst] at hrun
    exact absurd hrun (by decide)

theorem decidePhase_busy_wakes (indeterminate : CFloat) (s : SimState) (i : Nat)
    (h : (selectPhase s).1 = some i) :
    (applyPowerDecision (decidePhase indeterminate s) s.currentPowerState).isDPMActive
      = false := by
  simp only [decidePhase, h]
  exact makeDVFSDecision_wakes _ _ _

theorem updateStats_timeInPowerDown (stats : SchedulerStats) (powerState : PowerState)
    (t : Nat) :
    (updateStats stats powerState t).timeInPowerDown =
      (if powerState.isDPMActive = true then addU32 stats.timeInPowerDown 1
        else stats.timeInPowerDown) ∧
    (updateStats stats powerState t).timeAtFrequency3 =
      (if powerState.frequencyLevel = floatOne then addU32 stats.timeAtFrequency3 1
        else stats.timeAtFrequency3) := by
  unfold updateStats
  simp only
  split_ifs <;> simp

theorem schedulerTick_record (indeterminate : CFloat) (s : SimState) :
    ∃ r, (schedulerTick indeterminate s).output = s.output ++ [r] ∧
      r.isDPMActive = (schedulerTick indeterminate s).currentPowerState.isDPMActive ∧
      r.frequencyLevel = (schedulerTick indeterminate s).currentPowerState.frequencyLevel ∧
      r.decision = (decidePhase indeterminate s).type ∧
      ((selectPhase s).1 = none → r.task = none) ∧
      (schedulerTick indeterminate s).currentPowerState
        = applyPowerDecision (decidePhase indeterminate s) s.currentPowerState ∧
      (schedulerTick indeterminate s).stats
        = updateStats s.stats (schedulerTick indeterminate s).currentPowerState s.currentTime := by
  refine ⟨_, rfl, rfl, rfl, rfl, ?_, rfl, rfl⟩
  intro h
  simp [logSchedulerState, h]

/-- C13: in every run from an initial state with all tasks IDLE, at every tick: if
isDPMActive is true after the apply phase then no task was selected, no task is RUNNING
after the select phase and none is at the end of the tick; every trace record written as
Power-down shows no running task; and a tick that executes a task does not change
timeInPowerDown. -/
theorem dpm_excludes_running (indeterminate : CFloat) (taskSet : TaskSet) (n : Nat)
    (s : SimState) (hinit : ∀ task ∈ taskSet, task.state = TaskState.TASK_IDLE)
    (hs : stateAfter indeterminate taskSet n = some s) :
    ((applyPowerDecision (decidePhase indeterminate s) s.currentPowerState).isDPMActive = true →
      (selectPhase s).1 = none ∧
      (∀ task ∈ (selectPhase s).2, task.state ≠ TaskState.TASK_RUNNING) ∧
      ∀ task ∈ (schedulerTick indeterminate s).taskSet,
        task.state ≠ TaskState.TASK_RUNNING) ∧
    (∀ r ∈ s.output, r.isDPMActive = true → r.task = none) ∧
    ((selectPhase s).1 ≠ none →
      (schedulerTick indeterminate s).currentPowerState.isDPMActive = false ∧
      (schedulerTick indeterminate s).stats.timeInPowerDown = s.stats.timeInPowerDown) := by
  have hinv : (∀ task ∈ s.taskSet, task.state = TaskState.TASK_RUNNING →
        task.absoluteDeadline < portMAX_DELAY) ∧
      (∀ r ∈ s.output, r.isDPMActive = true → r.task = none) := by
    refine stateAfter_invariant
      (fun s => (∀ task ∈ s.taskSet, task.state = TaskState.TASK_RUNNING →
          task.absoluteDeadline < portMAX_DELAY) ∧
        (∀ r ∈ s.output, r.isDPMActive = true → r.task = none))
      indeterminate taskSet ?_ ?_ n s hs
    · refine ⟨?_, ?_⟩
      · intro task ht hrun
        rw [hinit task ht] at hrun
        exact absurd hrun (by decide)
      · intro r hr
        simp [initialState] at hr
    · intro s0 h0 _
      refine ⟨running_below_max_tick indeterminate s0 h0.1, ?_⟩
      obtain ⟨r, ho, hd, _, _, htask, hps, _⟩ := schedulerTick_record indeterminate s0
      intro r' hr' hdpm
      rw [ho] at hr'
      rcases List.mem_append.1 hr' with h1 | h1
      · exact h0.2 r' h1 hdpm
      · simp only [List.mem_singleton] at h1
        subst h1
        cases hsel : (selectPhase s0).1 with
        | none => exact htask hsel
        | some i =>
          rw [hd, hps, decidePhase_busy_wakes indeterminate s0 i hsel] at hdpm
          exact absurd hdpm (by decide)
  refine ⟨?_, hinv.2, ?_⟩
  · intro hdpm
    cases hsel : (selectPhase s).1 with
    | none =>
      exact ⟨rfl, idle_tick_no_running indeterminate s hinv.1 hsel⟩
    | some i =>
      rw [decidePhase_busy_wakes indeterminate s i hsel] at hdpm
      exact absurd hdpm (by decide)
  · intro hsel
    obtain ⟨i, hi⟩ : ∃ i, (selectPhase s).1 = some i := by
      cases h : (selectPhase s).1 with
      | none => exact absurd h hsel
      | some i => exact ⟨i, rfl⟩
    obtain ⟨r, _, _, _, _, _, hps, hst⟩ := schedulerTick_record indeterminate s
    have hoff : (schedulerTick indeterminate s).currentPowerState.isDPMActive = false := by
      rw [hps]
      exact decidePhase_busy_wakes indeterminate s i hi
    refine ⟨hoff, ?_⟩
    rw [hst, (updateStats_timeInPowerDown _ _ _).1, hoff]
    simp

/-- C13 witness: idleTaskSet after 11 ticks, where isDPMActive is true. -/
theorem dpm_excludes_running_witness :
    stateAfter 0 idleTaskSet 11 = some idleState11 ∧
    idleState11.currentPowerState.isDPMActive = true ∧
    (applyPowerDecision (decidePhase 0 idleState11)
      idleState11.currentPowerState).isDPMActive = true ∧
    (∀ r ∈ idleState11.output, r.isDPMActive = true → r.task = none) :=
  ⟨by decide, by decide, by decide,
    (dpm_excludes_running 0 idleTaskSet 11 idleState11 (by decide) (by decide)).2.1⟩

/-! ## Occupancy counters -/

/-- C14 (as stated, refuted): after 11 ticks on idleTaskSet (10 ticks of execution at
level 1.0, then one DPM tick, still at level 1.0) totalExecutionTime = 11,
timeAtFrequency[3] = 11 and timeInPowerDown = 1: the DPM tick is counted twice and the
five counters add up to 12.  In scenario S2 the first tick runs at level 0.6 and is
counted in none of the five counters. -/
theorem stats_partition_counterexample :
    (stateAfter 0 idleTaskSet 11).map (fun s => s.stats.totalExecutionTime) = some 11 ∧
    (stateAfter 0 idleTaskSet 11).map
        (fun s => [s.stats.timeAtFrequency0, s.stats.timeAtFrequency1,
          s.stats.timeAtFrequency2, s.stats.timeAtFrequency3, s.stats.timeInPowerDown])
      = some [0, 0, 0, 11, 1] ∧
    (stateAfter 0 idleTaskSet 11).map (fun s => powerDownCount s.output) = some 1 ∧
    (stateAfter 0 s2TaskSet 1).map (fun s => s.stats.totalExecutionTime) = some 1 ∧
    (stateAfter 0 s2TaskSet 1).map (fun s => s.currentPowerState)
      = some { frequencyLevel := f06, isDPMActive := false } ∧
    (stateAfter 0 s2TaskSet 1).map
        (fun s => [s.stats.timeAtFrequency0, s.stats.timeAtFrequency1,
          s.stats.timeAtFrequency2, s.stats.timeAtFrequency3, s.stats.timeInPowerDown])
      = some [0, 0, 0, 0, 0] := by
  refine ⟨by decide, by decide, by decide, by decide, by decide, by decide⟩

/-- C14 (amended): after every tick of every run, timeInPowerDown is the number of
ticks so far with DPM active and timeAtFrequency[3] is the number of ticks so far at
level 1.0, DPM ticks included (both modulo 2 ^ 32, and exactly while fewer than 2 ^ 32
ticks have run): the two kinds of counter are kept independently. -/
theorem stats_counters (indeterminate : CFloat) (taskSet : TaskSet) (n : Nat) (s : SimState)
    (hs : stateAfter indeterminate taskSet n = some s) :
    s.stats.timeInPowerDown = powerDownCount s.output % 4294967296 ∧
    s.stats.timeAtFrequency3 = fullSpeedCount s.output % 4294967296 ∧
    (s.output.length < 4294967296 →
      s.stats.timeInPowerDown = powerDownCount s.output ∧
      s.stats.timeAtFrequency3 = fullSpeedCount s.output) := by
  have hinv : s.stats.timeInPowerDown = powerDownCount s.output % 4294967296 ∧
      s.stats.timeAtFrequency3 = fullSpeedCount s.output % 4294967296 := by
    refine stateAfter_invariant
      (fun s => s.stats.timeInPowerDown = powerDownCount s.output % 4294967296 ∧
        s.stats.timeAtFrequency3 = fullSpeedCount s.output % 4294967296)
      indeterminate taskSet ⟨rfl, rfl⟩ ?_ n s hs
    intro s0 h0 _
    obtain ⟨r, ho, hd, hf, _, _, _, hst⟩ := schedulerTick_record indeterminate s0
    obtain ⟨u1, u2⟩ := updateStats_timeInPowerDown s0.stats
      (schedulerTick indeterminate s0).currentPowerState s0.currentTime
    rw [hst, u1, u2, ho, ← hd, ← hf, h0.1, h0.2]
    simp only [powerDownCount, fullSpeedCount, List.countP_append, List.countP_cons,
      List.countP_nil, addU32, tickModulus]
    constructor
    · cases r.isDPMActive <;> simp
    · by_cases hfl : r.frequencyLevel = floatOne <;> simp [hfl]
  refine ⟨hinv.1, hinv.2, ?_⟩
  intro hlen
  have h1 : powerDownCount s.output ≤ s.output.length := List.countP_le_length _
  have h2 : fullSpeedCount s.output ≤ s.output.length := List.countP_le_length _
  rw [hinv.1, hinv.2]
  exact ⟨Nat.mod_eq_of_lt (by omega), Nat.mod_eq_of_lt (by omega)⟩

/-- C14 witness: idleTaskSet after 11 ticks: 1 tick with DPM active and 11 ticks at
level 1.0. -/
theorem stats_counters_witness :
    stateAfter 0 idleTaskSet 11 = some idleState11 ∧
    powerDownCount idleState11.output = 1 ∧ fullSpeedCount idleState11.output = 11 ∧
    idleState11.stats.timeInPowerDown = powerDownCount idleState11.output % 4294967296 ∧
    idleState11.stats.timeAtFrequency3 = fullSpeedCount idleState11.output % 4294967296 :=
  ⟨by decide, by decide, by decide,
    (stats_counters 0 idleTaskSet 11 idleState11 (by decide)).1,
    (stats_counters 0 idleTaskSet 11 idleState11 (by decide)).2.1⟩

/-! ## DPM wake-up before a release -/

theorem isActive_iff (task : Task) :
    task.isActive = true ↔ task.state ≠ TaskState.TASK_IDLE := by
  unfold Task.isActive
  cases task.state <;> simp

theorem arriveTask_ok (e t : Nat) (y : Task) (hle : t ≤ e)
    (h : y.nextArrivalTime < 4294967296 ∧ e + y.relativeDeadline < portMAX_DELAY ∧
      (y.state ≠ TaskState.TASK_IDLE → y.absoluteDeadline < portMAX_DELAY)) :
    (arriveTask t y).nextArrivalTime < 4294967296 ∧
    e + (arriveTask t y).relativeDeadline < portMAX_DELAY ∧
    ((arriveTask t y).state ≠ TaskState.TASK_IDLE →
      (arriveTask t y).absoluteDeadline < portMAX_DELAY) := by
  rcases arriveTask_cases t y with ⟨he, _⟩ | ⟨_, _, hd, hn, hr⟩
  · rw [he]
    exact h
  · rw [hd, hn, hr]
    have h2 := h.2.1
    simp only [addU32, tickModulus, portMAX_DELAY] at h2 ⊢
    refine ⟨Nat.mod_lt _ (by norm_num), h2, fun _ => ?_⟩
    omega

theorem taskOk_select (e : Nat) (s : SimState) (hle : s.currentTime ≤ e)
    (h : ∀ task ∈ s.taskSet, task.nextArrivalTime < 4294967296 ∧
      e + task.relativeDeadline < portMAX_DELAY ∧
      (task.state ≠ TaskState.TASK_IDLE → task.absoluteDeadline < portMAX_DELAY)) :
    ∀ task ∈ (selectPhase s).2, task.nextArrivalTime < 4294967296 ∧
      e + task.relativeDeadline < portMAX_DELAY ∧
      (task.state ≠ TaskState.TASK_IDLE → task.absoluteDeadline < portMAX_DELAY) := by
  intro x hx
  obtain ⟨y, hy, h1 | ⟨h1, _, hlt⟩⟩ := selectPhase_mem s x hx
  · rw [h1]
    exact arriveTask_ok e s.currentTime y hle (h y hy)
  · obtain ⟨m1, m2, m3, _, _⟩ := markRunning_frame (arriveTask s.currentTime y)
    obtain ⟨a1, a2, _⟩ := arriveTask_ok e s.currentTime y hle (h y hy)
    rw [h1, m1, m2, m3]
    exact ⟨a1, a2, fun _ => hlt⟩

theorem taskOk_tick (indeterminate : CFloat) (e : Nat) (s : SimState)
    (hle : s.currentTime ≤ e)
    (h : ∀ task ∈ s.taskSet, task.nextArrivalTime < 4294967296 ∧
      e + task.relativeDeadline < portMAX_DELAY ∧
      (task.state ≠ TaskState.TASK_IDLE → task.absoluteDeadline < portMAX_DELAY)) :
    ∀ task ∈ (schedulerTick indeterminate s).taskSet, task.nextArrivalTime < 4294967296 ∧
      e + task.relativeDeadline < portMAX_DELAY ∧
      (task.state ≠ TaskState.TASK_IDLE → task.absoluteDeadline < portMAX_DELAY) := by
  intro x hx
  have hsel := taskOk_select e s hle h
  have key : ∀ z : Task, (z.nextArrivalTime < 4294967296 ∧
      e + z.relativeDeadline < portMAX_DELAY ∧
      (z.state ≠ TaskState.TASK_IDLE → z.absoluteDeadline < portMAX_DELAY)) →
      ((completeTask (addU32 s.currentTime 1) z).nextArrivalTime < 4294967296 ∧
      e + (completeTask (addU32 s.currentTime 1) z).relativeDeadline < portMAX_DELAY ∧
      ((completeTask (addU32 s.currentTime 1) z).state ≠ TaskState.TASK_IDLE →
        (completeTask (addU32 s.currentTime 1) z).absoluteDeadline < portMAX_DELAY)) := by
    intro z hz
    rcases completeTask_cases (addU32 s.currentTime 1) z with he | ⟨_, hst, hd, hn, hr⟩
    · rw [he]
      exact hz
    · rw [hst, hn, hr]
      exact ⟨hz.1, hz.2.1, fun hne => absurd rfl hne⟩
  obtain ⟨y, hy, h1 | ⟨ps, h1⟩⟩ := schedulerTick_taskSet_mem indeterminate s x hx
  · rw [h1]
    exact key y (hsel y hy)
  · rw [h1]
    apply key
    obtain ⟨e1, e2, e3, e4⟩ := executeTask_frame y ps s.currentTime
    rw [e1, e2, e3, e4]
    exact hsel y hy

theorem idle_tick_tasks (e : Nat) (s : SimState) (hle : s.currentTime ≤ e)
    (h : ∀ task ∈ s.taskSet, task.nextArrivalTime < 4294967296 ∧
      e + task.relativeDeadline < portMAX_DELAY ∧
      (task.state ≠ TaskState.TASK_IDLE → task.absoluteDeadline < portMAX_DELAY))
    (hidle : (selectPhase s).1 = none) :
    (selectPhase s).2 = s.taskSet ∧
    ∀ task ∈ s.taskSet, task.state = TaskState.TASK_IDLE ∧
      s.currentTime < task.nextArrivalTime := by
  obtain ⟨hsame, hnone⟩ := getHighestPriorityTask_none _ hidle
  have hall : ∀ y ∈ s.taskSet, arriveTask s.currentTime y = y ∧
      y.state = TaskState.TASK_IDLE ∧ s.currentTime < y.nextArrivalTime := by
    intro y hy
    have hmem : arriveTask s.currentTime y ∈ checkForTaskArrivals s.taskSet s.currentTime := by
      simp only [checkForTaskArrivals, List.mem_map]
      exact ⟨y, hy, rfl⟩
    have hok := arriveTask_ok e s.currentTime y hle (h y hy)
    have hidl : (arriveTask s.currentTime y).state = TaskState.TASK_IDLE := by
      by_contra hne
      have h1 := hok.2.2 hne
      have h2 := hnone _ hmem ((isActive_iff _).2 hne)
      omega
    rcases arriveTask_cases s.currentTime y with ⟨he, hn⟩ | ⟨_, hst, _⟩
    · rw [he] at hidl
      refine ⟨he, hidl, ?_⟩
      by_contra hlt
      exact hn ⟨by omega, hidl⟩
    · rw [hst] at hidl
      exact absurd hidl (by decide)
  refine ⟨?_, fun y hy => (hall y hy).2⟩
  unfold selectPhase
  rw [hsame]
  unfold checkForTaskArrivals
  conv_rhs => rw [← List.map_id s.taskSet]
  exact List.map_congr_left (fun y hy => (hall y hy).1)

theorem idle_slack_le (t : Nat) (l : TaskSet)
    (h : ∀ task ∈ l, task.nextArrivalTime < 4294967296 ∧
      task.state = TaskState.TASK_IDLE ∧ t < task.nextArrivalTime) :
    ∀ task ∈ l, calculateSystemSlack l t ≤ task.nextArrivalTime - t := by
  intro task hm
  have hidle : ∀ task ∈ l, task.isActive = false := by
    intro y hy
    have := (isActive_iff y).not.2 (not_not.2 (h y hy).2.1)
    simpa using this
  rw [calculateSystemSlack_inactive l t hidle,
    ← subU32_of_lt _ _ (h task hm).1 (h task hm).2.2]
  exact arrivalLoop_le t l _ task hm (h task hm).2.2

theorem makeDVFSDecision_awake_type (task : Option Task) (slack : Nat) (st : PowerState)
    (h : st.isDPMActive = false) :
    (makeDVFSDecision task slack st).type = PowerDecisionType.POWER_NO_CHANGE ∨
    (makeDVFSDecision task slack st).type = PowerDecisionType.POWER_DVFS_CHANGE := by
  unfold makeDVFSDecision
  simp only [h, Bool.false_eq_true, if_false]
  split_ifs <;> simp

theorem dpm_invariant (indeterminate : CFloat) (taskSet : TaskSet)
    (hinit : ∀ task ∈ taskSet, task.state = TaskState.TASK_IDLE ∧
      task.nextArrivalTime < 4294967296)
    (hdl : ∀ task ∈ taskSet,
      calculateSimulationEndTime taskSet + task.relativeDeadline < portMAX_DELAY) :
    ∀ n s, stateAfter indeterminate taskSet n = some s →
      (∀ task ∈ s.taskSet, task.nextArrivalTime < 4294967296 ∧
        calculateSimulationEndTime taskSet + task.relativeDeadline < portMAX_DELAY ∧
        (task.state ≠ TaskState.TASK_IDLE → task.absoluteDeadline < portMAX_DELAY)) ∧
      (s.currentPowerState.isDPMActive = true →
        ∀ task ∈ s.taskSet, task.state = TaskState.TASK_IDLE ∧
          s.currentTime + 20 ≤ task.nextArrivalTime) := by
  refine stateAfter_invariant _ indeterminate taskSet ?_ ?_
  · refine ⟨fun task ht => ⟨(hinit task ht).2, hdl task ht, fun hne => absurd (hinit task ht).1 hne⟩,
      fun hdpm => ?_⟩
    simp [initialState, initialPowerState] at hdpm
  · intro s0 ⟨hok, _⟩ hle
    refine ⟨taskOk_tick indeterminate _ s0 hle hok, ?_⟩
    intro hdpm
    obtain ⟨r, _, _, _, _, _, hps, _⟩ := schedulerTick_record indeterminate s0
    rw [hps] at hdpm
    cases hsel : (selectPhase s0).1 with
    | some i =>
      rw [decidePhase_busy_wakes indeterminate s0 i hsel] at hdpm
      exact absurd hdpm (by decide)
    | none =>
      obtain ⟨hsame, hidl⟩ := idle_tick_tasks _ s0 hle hok hsel
      have hslack : 20 < calculateSystemSlack s0.taskSet s0.currentTime := by
        simp only [decidePhase, hsel, hsame] at hdpm
        exact makeDPMDecision_sleeps _ _ _ hdpm
      have hle2 := idle_slack_le s0.currentTime s0.taskSet
        (fun task ht => ⟨(hok task ht).1, hidl task ht⟩)
      intro x hx
      rw [schedulerTick_idle indeterminate s0 hsel] at hx ⊢
      simp only [hsame, checkForTaskCompletions, List.mem_map] at hx
      obtain ⟨y, hy, rfl⟩ := hx
      have hyi := (hidl y hy).1
      rcases completeTask_cases (addU32 s0.currentTime 1) y with he | ⟨hrun, _⟩
      · rw [he]
        refine ⟨hyi, ?_⟩
        have h1 := hle2 y hy
        have h2 := (hidl y hy).2
        simp only [addU32, tickModulus]
        have h3 : (s0.currentTime + 1) % 4294967296 ≤ s0.currentTime + 1 := Nat.mod_le _ _
        omega
      · rw [hyi] at hrun
        exact absurd hrun (by decide)

/-- C20 (as stated, refuted): on sentinelDpmTaskSet task 1 is READY with deadline
portMAX_DELAY and is never selected.  At time 5 no task is selected, DPM is active and
task 2 has nextArrivalTime - t = 20, yet the decision is NO_CHANGE: the slack is taken
from the READY task.  At time 25 task 2 is released while isDPMActive is still true, and
the decision of that tick is DPM_OFF instead of a DVFS decision. -/
theorem dpm_wake_counterexample :
    (stateAfter 0 sentinelDpmTaskSet 5).map (fun s => (selectPhase s).1) = some none ∧
    (stateAfter 0 sentinelDpmTaskSet 5).map (fun s => s.currentPowerState.isDPMActive)
      = some true ∧
    (stateAfter 0 sentinelDpmTaskSet 5).map
        (fun s => (s.currentTime, s.taskSet.map (fun t => (t.state, t.nextArrivalTime))))
      = some (5, [(TaskState.TASK_READY, 25), (TaskState.TASK_IDLE, 25)]) ∧
    (stateAfter 0 sentinelDpmTaskSet 5).map (fun s => (decidePhase 0 s).type)
      = some PowerDecisionType.POWER_NO_CHANGE ∧
    (stateAfter 0 sentinelDpmTaskSet 25).map
        (fun s => (s.currentTime, s.taskSet.map (fun t => (t.state, t.nextArrivalTime))))
      = some (25, [(TaskState.TASK_READY, 25), (TaskState.TASK_IDLE, 25)]) ∧
    (stateAfter 0 sentinelDpmTaskSet 25).map (fun s => s.currentPowerState.isDPMActive)
      = some true ∧
    (stateAfter 0 sentinelDpmTaskSet 25).map (fun s => (selectPhase s).1) = some (some 1) ∧
    (stateAfter 0 sentinelDpmTaskSet 25).map (fun s => (decidePhase 0 s).type)
      = some PowerDecisionType.POWER_DPM_OFF := by
  refine ⟨by decide, by decide, by decide, by decide, by decide, by decide, by decide,
    by decide⟩

/-- C20 (amended): in every run from an initial state with all tasks IDLE in which no
absolute deadline can reach portMAX_DELAY (T_end + relativeDeadline < 4294967295 for
every task), at every tick of the loop: if no task is selected, DPM is active and some
task has nextArrivalTime - t <= 20, the decision is DPM_OFF; and if a task is released at
this tick, then isDPMActive is false before the decision phase, a task is selected, and
the decision is the DVFS decision NO_CHANGE or DVFS_CHANGE. -/
theorem dpm_wakes_before_release (indeterminate : CFloat) (taskSet : TaskSet) (n : Nat)
    (s : SimState)
    (hinit : ∀ task ∈ taskSet, task.state = TaskState.TASK_IDLE ∧
      task.nextArrivalTime < 4294967296)
    (hdl : ∀ task ∈ taskSet,
      calculateSimulationEndTime taskSet + task.relativeDeadline < portMAX_DELAY)
    (hs : stateAfter indeterminate taskSet n = some s)
    (hle : s.currentTime ≤ calculateSimulationEndTime taskSet) :
    ((selectPhase s).1 = none → s.currentPowerState.isDPMActive = true →
      (∃ task ∈ (selectPhase s).2, task.nextArrivalTime ≤ s.currentTime + 20) →
      (decidePhase indeterminate s).type = PowerDecisionType.POWER_DPM_OFF) ∧
    ((∃ task ∈ s.taskSet, task.state = TaskState.TASK_IDLE ∧
        task.nextArrivalTime ≤ s.currentTime) →
      s.currentPowerState.isDPMActive = false ∧
      (∃ i, (selectPhase s).1 = some i) ∧
      ((decidePhase indeterminate s).type = PowerDecisionType.POWER_NO_CHANGE ∨
        (decidePhase indeterminate s).type = PowerDecisionType.POWER_DVFS_CHANGE)) := by
  obtain ⟨hok, hdpm⟩ := dpm_invariant indeterminate taskSet hinit hdl n s hs
  constructor
  · intro hsel hact ⟨task, hm, hnext⟩
    obtain ⟨hsame, hidl⟩ := idle_tick_tasks _ s hle hok hsel
    rw [hsame] at hm
    have h1 := idle_slack_le s.currentTime s.taskSet
      (fun task ht => ⟨(hok task ht).1, hidl task ht⟩) task hm
    have h2 : calculateSystemSlack s.taskSet s.currentTime ≤ DPM_THRESHOLD := by
      simp only [DPM_THRESHOLD]
      omega
    have h3 : ¬ DPM_THRESHOLD < calculateSystemSlack s.taskSet s.currentTime := by omega
    simp only [decidePhase, hsel, hsame, makeDPMDecision, hact, h2, h3]
    simp
  · rintro ⟨task, hm, hst, hnext⟩
    have hoff : s.currentPowerState.isDPMActive = false := by
      cases hb : s.currentPowerState.isDPMActive with
      | false => rfl
      | true =>
        have := (hdpm hb task hm).2
        omega
    have hsome : ∃ i, (selectPhase s).1 = some i := by
      cases hsel : (selectPhase s).1 with
      | some i => exact ⟨i, rfl⟩
      | none =>
        have := ((idle_tick_tasks _ s hle hok hsel).2 task hm).2
        omega
    obtain ⟨i, hi⟩ := hsome
    refine ⟨hoff, ⟨i, hi⟩, ?_⟩
    simp only [decidePhase, hi]
    exact makeDVFSDecision_awake_type _ _ _ hoff

/-- C20 witness: wakeTaskSet (period 25) at time 5, an idle tick with DPM active and
the next arrival 20 ticks ahead: the decision is DPM_OFF.  In scenario S6 the decision at
time 30 is DPM_OFF, and at the release at time 50 DPM is inactive. -/
theorem dpm_wakes_before_release_witness :
    stateAfter 0 wakeTaskSet 5 = some wakeState5 ∧
    wakeState5.currentTime = 5 ∧ (selectPhase wakeState5).1 = none ∧
    wakeState5.currentPowerState.isDPMActive = true ∧
    (decidePhase 0 wakeState5).type = PowerDecisionType.POWER_DPM_OFF ∧
    (stateAfter 0 s6TaskSet 30).map (fun s => (decidePhase 0 s).type)
      = some PowerDecisionType.POWER_DPM_OFF ∧
    (stateAfter 0 s6TaskSet 50).map
        (fun s => (s.currentPowerState.isDPMActive, (decidePhase 0 s).type))
      = some (false, PowerDecisionType.POWER_NO_CHANGE) ∧
    ((selectPhase wakeState5).1 = none → wakeState5.currentPowerState.isDPMActive = true →
      (∃ task ∈ (selectPhase wakeState5).2, task.nextArrivalTime ≤ wakeState5.currentTime + 20) →
      (decidePhase 0 wakeState5).type = PowerDecisionType.POWER_DPM_OFF) :=
  ⟨by decide, by decide, by decide, by decide, by decide, by decide, by decide,
    (dpm_wakes_before_release 0 wakeTaskSet 5 wakeState5 (by decide) (by decide) (by decide)
      (by decide)).1⟩

/-! ## Frequency levels -/

theorem selectedLevel_mem (required : FloatResult) :
    availableFrequencyLevels.getD (selectedFrequencyIndex required) 0
      ∈ availableFrequencyLevels := by
  unfold selectedFrequencyIndex availableFrequencyLevels
  simp only [levelLoop]
  split_ifs <;> simp

theorem makeDVFSDecision_level_mem (task : Option Task) (slack : Nat) (st : PowerState)
    (h : (makeDVFSDecision task slack st).type = PowerDecisionType.POWER_DVFS_CHANGE) :
    (makeDVFSDecision task slack st).newFrequencyLevel ∈ availableFrequencyLevels := by
  simp only [makeDVFSDecision] at h ⊢
  by_cases h1 : st.isDPMActive = true
  · rw [if_pos h1] at h
    exact absurd h (by simp)
  · rw [if_neg h1] at h ⊢
    by_cases h2 : availableFrequencyLevels.getD
        (selectedFrequencyIndex (requiredFrequency task)) 0 ≠ st.frequencyLevel
    · rw [if_pos h2]
      exact selectedLevel_mem _
    · rw [if_neg h2] at h
      exact absurd h (by simp)

theorem applyPowerDecision_level (decision : PowerDecision) (st : PowerState) :
    (decision.type = PowerDecisionType.POWER_DVFS_CHANGE ∧
      (applyPowerDecision decision st).frequencyLevel = decision.newFrequencyLevel) ∨
    (decision.type ≠ PowerDecisionType.POWER_DVFS_CHANGE ∧
      (applyPowerDecision decision st).frequencyLevel = st.frequencyLevel) := by
  unfold applyPowerDecision
  cases decision.type <;> simp

theorem decidePhase_level_mem (indeterminate : CFloat) (s : SimState)
    (h : s.currentPowerState.frequencyLevel ∈ availableFrequencyLevels) :
    (applyPowerDecision (decidePhase indeterminate s) s.currentPowerState).frequencyLevel
      ∈ availableFrequencyLevels := by
  rcases applyPowerDecision_level (decidePhase indeterminate s) s.currentPowerState with
    ⟨ht, he⟩ | ⟨_, he⟩
  · rw [he]
    unfold decidePhase at ht ⊢
    cases hsel : (selectPhase s).1 with
    | none =>
      simp only [hsel] at ht
      exact absurd ht (makeDPMDecision_type indeterminate indeterminate _ _).2
    | some i =>
      simp only [hsel] at ht ⊢
      exact makeDVFSDecision_level_mem _ _ _ ht
  · rw [he]
    exact h

theorem level_pos (f : CFloat) (h : f ∈ availableFrequencyLevels) : 0 < f := by
  simp only [availableFrequencyLevels, List.mem_cons, List.mem_singleton, List.mem_nil_iff,
    or_false] at h
  rcases h with h | h | h | h <;> rw [h] <;> decide

/-- C23: in every run from the initial PowerState, the frequency level is one of the
four entries of the table availableFrequencyLevels (the floats nearest to 0.4, 0.6, 0.8,
1.0), hence positive, at the start of every tick, after its apply phase and in every
trace record; a DvfsChange of makeDVFSDecision carries a level of the table, and applying
a decision of makeDPMDecision leaves the level unchanged. -/
theorem frequency_level_in_table (indeterminate : CFloat) (taskSet : TaskSet) (n : Nat)
    (s : SimState) (hs : stateAfter indeterminate taskSet n = some s) :
    s.currentPowerState.frequencyLevel ∈ availableFrequencyLevels ∧
    0 < s.currentPowerState.frequencyLevel ∧
    (applyPowerDecision (decidePhase indeterminate s) s.currentPowerState).frequencyLevel
      ∈ availableFrequencyLevels ∧
    0 < (applyPowerDecision (decidePhase indeterminate s) s.currentPowerState).frequencyLevel ∧
    (∀ r ∈ s.output, r.frequencyLevel ∈ availableFrequencyLevels ∧ 0 < r.frequencyLevel) ∧
    (∀ task slack st,
      (makeDVFSDecision task slack st).type = PowerDecisionType.POWER_DVFS_CHANGE →
      (makeDVFSDecision task slack st).newFrequencyLevel ∈ availableFrequencyLevels) ∧
    (∀ slack st, (applyPowerDecision (makeDPMDecision indeterminate slack st) st).frequencyLevel
      = st.frequencyLevel) ∧
    availableFrequencyLevels = [f04, f06, f08, floatOne] := by
  have hinv : s.currentPowerState.frequencyLevel ∈ availableFrequencyLevels ∧
      ∀ r ∈ s.output, r.frequencyLevel ∈ availableFrequencyLevels := by
    refine stateAfter_invariant
      (fun s => s.currentPowerState.frequencyLevel ∈ availableFrequencyLevels ∧
        ∀ r ∈ s.output, r.frequencyLevel ∈ availableFrequencyLevels)
      indeterminate taskSet ?_ ?_ n s hs
    · refine ⟨?_, ?_⟩
      · simp [initialState, initialPowerState, availableFrequencyLevels]
      · intro r hr
        simp [initialState] at hr
    · intro s0 ⟨h1, h2⟩ _
      obtain ⟨r, hout, _, hlev, _, _, hps, _⟩ := schedulerTick_record indeterminate s0
      have h3 : (schedulerTick indeterminate s0).currentPowerState.frequencyLevel
          ∈ availableFrequencyLevels := by
        rw [hps]
        exact decidePhase_level_mem indeterminate s0 h1
      refine ⟨h3, ?_⟩
      intro r0 hr0
      rw [hout, List.mem_append, List.mem_singleton] at hr0
      rcases hr0 with hr0 | hr0
      · exact h2 r0 hr0
      · rw [hr0, hlev]
        exact h3
  have hnext := decidePhase_level_mem indeterminate s hinv.1
  refine ⟨hinv.1, level_pos _ hinv.1, hnext, level_pos _ hnext,
    fun r hr => ⟨hinv.2 r hr, level_pos _ (hinv.2 r hr)⟩,
    makeDVFSDecision_level_mem, ?_, rfl⟩
  intro slack st
  rcases applyPowerDecision_level (makeDPMDecision indeterminate slack st) st with
    ⟨ht, _⟩ | ⟨_, he⟩
  · exact absurd ht (makeDPMDecision_type indeterminate indeterminate _ _).2
  · exact he

/-- C23 witness: scenario S2 after its first tick, where the level is the table entry
for 0.6. -/
theorem frequency_level_in_table_witness :
    stateAfter 0 s2TaskSet 1 = some s2State1 ∧
    s2State1.currentPowerState.frequencyLevel = f06 ∧
    s2State1.currentPowerState.frequencyLevel ∈ availableFrequencyLevels ∧
    0 < s2State1.currentPowerState.frequencyLevel :=
  ⟨by decide, by decide,
    (frequency_level_in_table 0 s2TaskSet 1 s2State1 (by decide)).1,
    (frequency_level_in_table 0 s2TaskSet 1 s2State1 (by decide)).2.1⟩

/-! ## The fields of a task through one tick -/

theorem arriveTask_release (t : Nat) (y : Task)
    (hc : y.nextArrivalTime ≤ t ∧ y.state = TaskState.TASK_IDLE) :
    arriveTask t y =
      { y with
        state := TaskState.TASK_READY
        remainingExecutionTime := y.currentActual
        absoluteDeadline := addU32 t y.relativeDeadline
        arrivalTime := t
        nextArrivalTime := addU32 y.nextArrivalTime y.period } := by
  unfold arriveTask
  rw [if_pos hc]

theorem arriveTask_skip (t : Nat) (y : Task)
    (hc : ¬ (y.nextArrivalTime ≤ t ∧ y.state = TaskState.TASK_IDLE)) :
    arriveTask t y = y := by
  unfold arriveTask
  rw [if_neg hc]

theorem completeTask_keeps (t : Nat) (y : Task)
    (h : ¬ (y.state = TaskState.TASK_RUNNING ∧ y.remainingExecutionTime ≤ 0)) :
    completeTask t y = y := by
  unfold completeTask
  rw [if_neg h]

theorem executeTask_eq (y : Task) (ps : PowerState) (t : Nat) :
    ∃ r, (executeTask y ps t).1 = { y with remainingExecutionTime := r } := by
  unfold executeTask
  simp only
  split_ifs
  · exact ⟨_, rfl⟩
  · exact ⟨_, rfl⟩

theorem markRunning_eq (y : Task) (h : y.isActive = true) :
    markRunning y = { y with state := TaskState.TASK_RUNNING } := by
  unfold markRunning
  by_cases hr : y.state = TaskState.TASK_READY
  · rw [if_pos hr]
  · rw [if_neg hr]
    have hrun : y.state = TaskState.TASK_RUNNING := by
      unfold Task.isActive at h
      cases hst : y.state <;> simp_all
    cases y
    simp only at hrun
    subst hrun
    rfl

theorem schedulerTick_task_cases (indeterminate : CFloat) (s : SimState) (x : Task)
    (h : x ∈ (schedulerTick indeterminate s).taskSet) :
    ∃ y ∈ s.taskSet,
      x = completeTask (addU32 s.currentTime 1) (arriveTask s.currentTime y) ∨
      ((arriveTask s.currentTime y).isActive = true ∧
        ∃ ps, x = completeTask (addU32 s.currentTime 1)
          (executeTask (markRunning (arriveTask s.currentTime y)) ps s.currentTime).1) := by
  cases hs : (selectPhase s).1 with
  | none =>
    rw [schedulerTick_idle indeterminate s hs] at h
    have hsame : (selectPhase s).2 = checkForTaskArrivals s.taskSet s.currentTime :=
      (getHighestPriorityTask_none _ hs).1
    simp only [hsame, checkForTaskCompletions, checkForTaskArrivals, List.mem_map] at h
    obtain ⟨z, ⟨y, hy, rfl⟩, rfl⟩ := h
    exact ⟨y, hy, Or.inl rfl⟩
  | some i =>
    rw [schedulerTick_busy indeterminate s i hs] at h
    obtain ⟨⟨u, hi, hact, _⟩, h2⟩ :=
      getHighestPriorityTask_some (checkForTaskArrivals s.taskSet s.currentTime) i hs
    have hsel : (selectPhase s).2
        = (checkForTaskArrivals s.taskSet s.currentTime).set i (markRunning u) := by
      unfold selectPhase
      rw [h2, modifyAt_eq_set markRunning _ i u hi]
    have hlt : i < (checkForTaskArrivals s.taskSet s.currentTime).length := by
      by_contra hge
      rw [List.getElem?_eq_none (by omega)] at hi
      exact Option.noConfusion hi
    have hget : ((checkForTaskArrivals s.taskSet s.currentTime).set i (markRunning u))[i]?
        = some (markRunning u) := by
      exact List.getElem?_set_self hlt
    simp only [checkForTaskCompletions, List.mem_map] at h
    obtain ⟨z, hz, rfl⟩ := h
    rw [hsel, modifyAt_eq_set _ _ i (markRunning u) hget, List.set_set] at hz
    have hu : u ∈ checkForTaskArrivals s.taskSet s.currentTime := List.getElem?_mem hi
    rcases List.mem_or_eq_of_mem_set hz with h3 | h3
    · simp only [checkForTaskArrivals, List.mem_map] at h3
      obtain ⟨y, hy, rfl⟩ := h3
      exact ⟨y, hy, Or.inl rfl⟩
    · simp only [checkForTaskArrivals, List.mem_map] at hu
      obtain ⟨y, hy, rfl⟩ := hu
      exact ⟨y, hy, Or.inr ⟨hact, _, by rw [h3]⟩⟩

theorem completeTask_done (t : Nat) (y : Task)
    (hc : y.state = TaskState.TASK_RUNNING ∧ y.remainingExecutionTime ≤ 0) :
    (completeTask t y).state = TaskState.TASK_IDLE ∧
    (completeTask t y).currentInstance
      = (if MAX_INSTANCES ≤ y.currentInstance + 1 then 0 else y.currentInstance + 1) := by
  unfold completeTask
  rw [if_pos hc]
  exact ⟨rfl, rfl⟩

theorem instance_step (c : Int) (h : 0 ≤ c ∧ c < MAX_INSTANCES) :
    0 ≤ (if MAX_INSTANCES ≤ c + 1 then 0 else c + 1) ∧
    (if MAX_INSTANCES ≤ c + 1 then 0 else c + 1) < MAX_INSTANCES := by
  unfold MAX_INSTANCES at h ⊢
  split_ifs <;> omega

theorem arriveTask_boundary (t : Nat) (y : Task)
    (h : (y.state = TaskState.TASK_RUNNING → 0 < y.remainingExecutionTime) ∧
      (y.state = TaskState.TASK_READY → y.remainingExecutionTime = y.currentActual) ∧
      (y.state ≠ TaskState.TASK_IDLE →
        y.absoluteDeadline = addU32 y.arrivalTime y.relativeDeadline) ∧
      (0 ≤ y.currentInstance ∧ y.currentInstance < MAX_INSTANCES)) :
    ((arriveTask t y).state = TaskState.TASK_RUNNING →
      0 < (arriveTask t y).remainingExecutionTime) ∧
    ((arriveTask t y).state = TaskState.TASK_READY →
      (arriveTask t y).remainingExecutionTime = (arriveTask t y).currentActual) ∧
    ((arriveTask t y).state ≠ TaskState.TASK_IDLE →
      (arriveTask t y).absoluteDeadline
        = addU32 (arriveTask t y).arrivalTime (arriveTask t y).relativeDeadline) ∧
    (0 ≤ (arriveTask t y).currentInstance ∧ (arriveTask t y).currentInstance < MAX_INSTANCES) := by
  by_cases hc : y.nextArrivalTime ≤ t ∧ y.state = TaskState.TASK_IDLE
  · rw [arriveTask_release t y hc]
    refine ⟨fun hr => ?_, fun _ => rfl, fun _ => rfl, h.2.2.2⟩
    exact absurd hr (by simp)
  · rw [arriveTask_skip t y hc]
    exact h

theorem completeTask_boundary (t : Nat) (y : Task)
    (h : (y.state = TaskState.TASK_READY → y.remainingExecutionTime = y.currentActual) ∧
      (y.state ≠ TaskState.TASK_IDLE →
        y.absoluteDeadline = addU32 y.arrivalTime y.relativeDeadline) ∧
      (0 ≤ y.currentInstance ∧ y.currentInstance < MAX_INSTANCES)) :
    ((completeTask t y).state = TaskState.TASK_RUNNING →
      0 < (completeTask t y).remainingExecutionTime) ∧
    ((completeTask t y).state = TaskState.TASK_READY →
      (completeTask t y).remainingExecutionTime = (completeTask t y).currentActual) ∧
    ((completeTask t y).state ≠ TaskState.TASK_IDLE →
      (completeTask t y).absoluteDeadline
        = addU32 (completeTask t y).arrivalTime (completeTask t y).relativeDeadline) ∧
    (0 ≤ (completeTask t y).currentInstance ∧
      (completeTask t y).currentInstance < MAX_INSTANCES) := by
  by_cases hc : y.state = TaskState.TASK_RUNNING ∧ y.remainingExecutionTime ≤ 0
  · obtain ⟨h1, h2⟩ := completeTask_done t y hc
    rw [h1, h2]
    refine ⟨fun hr => absurd hr (by decide), fun hr => absurd hr (by decide),
      fun hr => absurd rfl hr, instance_step _ h.2.2⟩
  · rw [completeTask_keeps t y hc]
    refine ⟨fun hr => ?_, h.1, h.2.1, h.2.2⟩
    by_contra hz
    exact hc ⟨hr, by omega⟩

theorem schedulerTick_boundary (indeterminate : CFloat) (s : SimState)
    (h : ∀ y ∈ s.taskSet,
      (y.state = TaskState.TASK_RUNNING → 0 < y.remainingExecutionTime) ∧
      (y.state = TaskState.TASK_READY → y.remainingExecutionTime = y.currentActual) ∧
      (y.state ≠ TaskState.TASK_IDLE →
        y.absoluteDeadline = addU32 y.arrivalTime y.relativeDeadline) ∧
      (0 ≤ y.currentInstance ∧ y.currentInstance < MAX_INSTANCES)) :
    ∀ x ∈ (schedulerTick indeterminate s).taskSet,
      (x.state = TaskState.TASK_RUNNING → 0 < x.remainingExecutionTime) ∧
      (x.state = TaskState.TASK_READY → x.remainingExecutionTime = x.currentActual) ∧
      (x.state ≠ TaskState.TASK_IDLE →
        x.absoluteDeadline = addU32 x.arrivalTime x.relativeDeadline) ∧
      (0 ≤ x.currentInstance ∧ x.currentInstance < MAX_INSTANCES) := by
  intro x hx
  obtain ⟨y, hy, hcase | ⟨hact, ps, hcase⟩⟩ := schedulerTick_task_cases indeterminate s x hx
  · rw [hcase]
    obtain ⟨a1, a2, a3, a4⟩ := arriveTask_boundary s.currentTime y (h y hy)
    exact completeTask_boundary _ _ ⟨a2, a3, a4⟩
  · rw [hcase]
    obtain ⟨_, _, a3, a4⟩ := arriveTask_boundary s.currentTime y (h y hy)
    obtain ⟨r, hr⟩ := executeTask_eq (markRunning (arriveTask s.currentTime y)) ps s.currentTime
    rw [hr, markRunning_eq _ hact]
    apply completeTask_boundary
    refine ⟨fun hrd => absurd hrd (by simp), fun _ => ?_, a4⟩
    exact a3 ((isActive_iff _).1 hact)

/-- C22 (as stated, refuted): on zeroTaskSet the release at time 0 makes task 2 READY
with remainingExecutionTime = 0; it is still READY with 0 after the reap phases of the
ticks 0, 1 and 2 (the sweep only reaps RUNNING tasks), is selected and logged as running
with 0 ticks left at time 3, and is reaped at time 4. -/
theorem zero_time_counterexample :
    (checkForTaskArrivals zeroTaskSet 0).map (fun t => (t.state, t.remainingExecutionTime))
      = [(TaskState.TASK_READY, 3), (TaskState.TASK_READY, 0)] ∧
    (stateAfter 0 zeroTaskSet 1).map
        (fun s => s.taskSet.map (fun t => (t.state, t.remainingExecutionTime)))
      = some [(TaskState.TASK_RUNNING, 2), (TaskState.TASK_READY, 0)] ∧
    (stateAfter 0 zeroTaskSet 3).map
        (fun s => s.taskSet.map (fun t => (t.state, t.remainingExecutionTime)))
      = some [(TaskState.TASK_IDLE, 0), (TaskState.TASK_READY, 0)] ∧
    (stateAfter 0 zeroTaskSet 4).map (fun s => s.output.map (fun r => r.task))
      = some [some (1, 3, 5), some (1, 2, 5), some (1, 1, 5), some (2, 0, 10)] ∧
    (stateAfter 0 zeroTaskSet 4).map
        (fun s => s.taskSet.map (fun t => (t.state, t.completionTime)))
      = some [(TaskState.TASK_IDLE, 3), (TaskState.TASK_IDLE, 4)] := by
  refine ⟨by decide, by decide, by decide, by decide, by decide⟩

/-- C22 (amended): in every run from the initial state (all tasks IDLE, currentInstance
0), after the reap phase of every tick and after the release phase that follows it:
every RUNNING task has remainingExecutionTime > 0, every READY task has
remainingExecutionTime = actualExecutionTime[currentInstance] with currentInstance
inside the table, and every READY or RUNNING task has absoluteDeadline = arrivalTime +
relativeDeadline as a TickType_t sum; hence every READY or RUNNING task has
remainingExecutionTime > 0 when the actual execution times of its table are all
positive. -/
theorem active_tasks_at_boundary (indeterminate : CFloat) (taskSet : TaskSet) (n : Nat)
    (s : SimState)
    (hinit : ∀ task ∈ taskSet, task.state = TaskState.TASK_IDLE ∧ task.currentInstance = 0)
    (hs : stateAfter indeterminate taskSet n = some s) :
    ∀ task, (task ∈ s.taskSet ∨ task ∈ checkForTaskArrivals s.taskSet s.currentTime) →
      (task.state = TaskState.TASK_RUNNING → 0 < task.remainingExecutionTime) ∧
      (task.state = TaskState.TASK_READY →
        task.remainingExecutionTime = task.currentActual) ∧
      (task.state ≠ TaskState.TASK_IDLE →
        task.absoluteDeadline = addU32 task.arrivalTime task.relativeDeadline) ∧
      (0 ≤ task.currentInstance ∧ task.currentInstance < MAX_INSTANCES) ∧
      ((∀ k < 100, 0 < task.actualExecutionTime.getD k 0) →
        task.state ≠ TaskState.TASK_IDLE → 0 < task.remainingExecutionTime) := by
  have hinv : ∀ y ∈ s.taskSet,
      (y.state = TaskState.TASK_RUNNING → 0 < y.remainingExecutionTime) ∧
      (y.state = TaskState.TASK_READY → y.remainingExecutionTime = y.currentActual) ∧
      (y.state ≠ TaskState.TASK_IDLE →
        y.absoluteDeadline = addU32 y.arrivalTime y.relativeDeadline) ∧
      (0 ≤ y.currentInstance ∧ y.currentInstance < MAX_INSTANCES) := by
    refine stateAfter_invariant
      (fun s => ∀ y ∈ s.taskSet,
        (y.state = TaskState.TASK_RUNNING → 0 < y.remainingExecutionTime) ∧
        (y.state = TaskState.TASK_READY → y.remainingExecutionTime = y.currentActual) ∧
        (y.state ≠ TaskState.TASK_IDLE →
          y.absoluteDeadline = addU32 y.arrivalTime y.relativeDeadline) ∧
        (0 ≤ y.currentInstance ∧ y.currentInstance < MAX_INSTANCES))
      indeterminate taskSet ?_ ?_ n s hs
    · intro y hy
      obtain ⟨h1, h2⟩ := hinit y hy
      refine ⟨fun hr => ?_, fun hr => ?_, fun hr => absurd h1 hr, ?_⟩
      · rw [h1] at hr
        exact absurd hr (by decide)
      · rw [h1] at hr
        exact absurd hr (by decide)
      · rw [h2]
        decide
    · intro s0 h0 _
      exact schedulerTick_boundary indeterminate s0 h0
  have hall : ∀ task, (task ∈ s.taskSet ∨
        task ∈ checkForTaskArrivals s.taskSet s.currentTime) →
      (task.state = TaskState.TASK_RUNNING → 0 < task.remainingExecutionTime) ∧
      (task.state = TaskState.TASK_READY →
        task.remainingExecutionTime = task.currentActual) ∧
      (task.state ≠ TaskState.TASK_IDLE →
        task.absoluteDeadline = addU32 task.arrivalTime task.relativeDeadline) ∧
      (0 ≤ task.currentInstance ∧ task.currentInstance < MAX_INSTANCES) := by
    intro task ht
    rcases ht with ht | ht
    · exact hinv task ht
    · simp only [checkForTaskArrivals, List.mem_map] at ht
      obtain ⟨y, hy, rfl⟩ := ht
      exact arriveTask_boundary s.currentTime y (hinv y hy)
  intro task ht
  obtain ⟨h1, h2, h3, h4⟩ := hall task ht
  refine ⟨h1, h2, h3, h4, fun hpos hne => ?_⟩
  cases hst : task.state with
  | TASK_IDLE => exact absurd hst hne
  | TASK_RUNNING => exact h1 hst
  | TASK_READY =>
    rw [h2 hst]
    unfold Task.currentActual
    apply hpos
    unfold MAX_INSTANCES at h4
    omega

/-- C22 witness: preemptTaskSet after its first tick, with task 1 READY (5 ticks of
work) and task 2 RUNNING (1 tick left). -/
theorem active_tasks_at_boundary_witness :
    stateAfter 0 preemptTaskSet 1 = some preemptState1 ∧
    preemptState1.taskSet.map (fun t => (t.state, t.remainingExecutionTime,
        t.arrivalTime, t.relativeDeadline, t.absoluteDeadline))
      = [(TaskState.TASK_READY, 5, 0, 20, 20), (TaskState.TASK_RUNNING, 1, 0, 2, 2)] ∧
    ∀ task, (task ∈ preemptState1.taskSet ∨
        task ∈ checkForTaskArrivals preemptState1.taskSet preemptState1.currentTime) →
      (task.state = TaskState.TASK_RUNNING → 0 < task.remainingExecutionTime) ∧
      (task.state = TaskState.TASK_READY →
        task.remainingExecutionTime = task.currentActual) ∧
      (task.state ≠ TaskState.TASK_IDLE →
        task.absoluteDeadline = addU32 task.arrivalTime task.relativeDeadline) ∧
      (0 ≤ task.currentInstance ∧ task.currentInstance < MAX_INSTANCES) ∧
      ((∀ k < 100, 0 < task.actualExecutionTime.getD k 0) →
        task.state ≠ TaskState.TASK_IDLE → 0 < task.remainingExecutionTime) :=
  ⟨by decide, by decide,
    active_tasks_at_boundary 0 preemptTaskSet 1 preemptState1 (by decide) (by decide)⟩

/-! ## One tick of execution -/

theorem roundHalfEven_upper (num den : Nat) :
    2 * (roundHalfEven num den * den) ≤ 2 * num + den := by
  have hdm := Nat.div_add_mod num den
  have e1 : (num / den + 1) * den = den * (num / den) + den := by ring
  have e2 : num / den * den = den * (num / den) := by ring
  unfold roundHalfEven
  simp only
  split_ifs
  · rw [e2]; omega
  · rw [e1]; omega
  · rw [e2]; omega
  · rw [e1]; omega

theorem floor_lower (r U f : Nat) (hr1 : 1 ≤ r) (hf2 : f ≤ U) :
    (r - 1) * U ≤ r * U - f := by
  obtain ⟨k, rfl⟩ : ∃ k, r = k + 1 := ⟨r - 1, by omega⟩
  have h : (k + 1) * U = k * U + U := by ring
  simp only [Nat.add_sub_cancel]
  omega

theorem floor_range (r f : Nat) (hr1 : 1 ≤ r) (hr : r ≤ 8388608) (hf : 0 < f) :
    r * 2 ^ 149 - f < 2 ^ 172 := by
  have h1 : r * 2 ^ 149 ≤ 8388608 * 2 ^ 149 := Nat.mul_le_mul_right _ hr
  have h2 : 0 < r * 2 ^ 149 := Nat.mul_pos (by omega) (by positivity)
  have h3 : 8388608 * 2 ^ 149 = 2 ^ 172 := by norm_num
  omega

theorem floor_upper (v x d f w : Nat) (h1 : 2 * v ≤ 2 * x + d) (h2 : d ≤ 2 ^ 148)
    (hf : 2 ^ 147 < f) (hx : x = w - f) (hw : f ≤ w) : v < w := by
  have h3 : (2 : Nat) ^ 148 = 2 * 2 ^ 147 := by norm_num
  omega

theorem fsub_level_floor (r f : Nat) (hr1 : 1 ≤ r) (hr : r ≤ 8388608)
    (hf1 : 2 ^ 147 < f) (hf2 : f ≤ 2 ^ 149) :
    (r - 1) * 2 ^ 149 ≤ roundF32 (r * 2 ^ 149 - f) 1 ∧
    roundF32 (r * 2 ^ 149 - f) 1 < r * 2 ^ 149 := by
  obtain ⟨s, hround, hs⟩ := roundF32_shift (r * 2 ^ 149 - f) 1
  rw [hround]
  simp only [Nat.div_one, one_mul] at hs ⊢
  have hX1 := floor_lower r (2 ^ 149) f hr1 hf2
  have hX2 := floor_range r f hr1 hr (lt_of_le_of_lt (Nat.zero_le _) hf1)
  have hs148 : s ≤ 148 := by
    rcases hs with ⟨h0, _⟩ | ⟨h1, _⟩
    · omega
    · have h2 : 2 ^ (23 + s) < 2 ^ 172 := lt_of_le_of_lt h1 hX2
      have h3 := (Nat.pow_lt_pow_iff_right (by norm_num : 1 < 2)).1 h2
      omega
  obtain ⟨k, hk⟩ : ∃ k, 149 = k + s := ⟨149 - s, by omega⟩
  have hUd : (2 : Nat) ^ 149 = 2 ^ k * 2 ^ s := by rw [hk, pow_add]
  have hd : 0 < 2 ^ s := by positivity
  constructor
  · have h1 : (r - 1) * 2 ^ k ≤ (r * 2 ^ 149 - f) / 2 ^ s := by
      rw [Nat.le_div_iff_mul_le hd]
      calc (r - 1) * 2 ^ k * 2 ^ s = (r - 1) * 2 ^ 149 := by rw [hUd]; ring
        _ ≤ r * 2 ^ 149 - f := hX1
    have h2 := (roundHalfEven_bounds (r * 2 ^ 149 - f) (2 ^ s)).1
    calc (r - 1) * 2 ^ 149 = (r - 1) * 2 ^ k * 2 ^ s := by rw [hUd]; ring
      _ ≤ roundHalfEven (r * 2 ^ 149 - f) (2 ^ s) * 2 ^ s :=
          Nat.mul_le_mul_right _ (le_trans h1 h2)
  · have h1 := roundHalfEven_upper (r * 2 ^ 149 - f) (2 ^ s)
    have h2 : 2 ^ s ≤ 2 ^ 148 := Nat.pow_le_pow_right (by norm_num) hs148
    have h4 : f ≤ r * 2 ^ 149 := by
      calc f ≤ 2 ^ 149 := hf2
        _ = 1 * 2 ^ 149 := by ring
        _ ≤ r * 2 ^ 149 := Nat.mul_le_mul_right _ hr1
    exact floor_upper _ _ _ f _ h1 h2 hf1 rfl h4

theorem level_bounds (f : Nat) (h : f ∈ availableFrequencyLevels) :
    2 ^ 147 < f ∧ f ≤ 2 ^ 149 := by
  simp only [availableFrequencyLevels, List.mem_cons, List.mem_singleton, List.mem_nil_iff,
    or_false] at h
  rcases h with h | h | h | h <;> rw [h] <;> decide

theorem executeTask_small (task : Task) (ps : PowerState) (t : Nat)
    (hr : task.remainingExecutionTime ≤ 8388608)
    (hps : ps.frequencyLevel ∈ availableFrequencyLevels) :
    (executeTask task ps t).1 =
      { task with remainingExecutionTime := task.remainingExecutionTime - 1 } := by
  obtain ⟨hf1, hf2⟩ := level_bounds _ hps
  have hpos : 0 < ps.frequencyLevel := lt_of_le_of_lt (Nat.zero_le _) hf1
  have hex : ofU32 task.remainingExecutionTime = task.remainingExecutionTime * 2 ^ 149 :=
    ofU32_exact _ (by omega)
  unfold executeTask
  simp only [hex]
  by_cases h0 : task.remainingExecutionTime = 0
  · have hlt : ¬ ps.frequencyLevel ≤ task.remainingExecutionTime * 2 ^ 149 := by
      rw [h0, Nat.zero_mul]
      exact Nat.not_le.2 hpos
    rw [if_neg hlt, h0]
  · have hle : ps.frequencyLevel ≤ task.remainingExecutionTime * 2 ^ 149 := by
      calc ps.frequencyLevel ≤ 2 ^ 149 := hf2
        _ = 1 * 2 ^ 149 := by ring
        _ ≤ task.remainingExecutionTime * 2 ^ 149 := Nat.mul_le_mul_right _ (by omega)
    rw [if_pos hle]
    obtain ⟨h1, h2⟩ := fsub_level_floor task.remainingExecutionTime ps.frequencyLevel
      (by omega) hr hf1 hf2
    have hdiv : roundF32 (task.remainingExecutionTime * 2 ^ 149 - ps.frequencyLevel) 1 / 2 ^ 149
        = task.remainingExecutionTime - 1 := by
      apply Nat.div_eq_of_lt_le h1
      have : task.remainingExecutionTime - 1 + 1 = task.remainingExecutionTime := by omega
      rw [this]
      exact h2
    have hmod : (task.remainingExecutionTime - 1) % 4294967296
        = task.remainingExecutionTime - 1 := by
      apply Nat.mod_eq_of_lt
      omega
    simp only [toU32, fsub, floatOne, tickModulus, hdiv, hmod]

theorem executeTask_fold (t : Nat) (levels : List PowerState)
    (hlevels : ∀ p ∈ levels, p.frequencyLevel ∈ availableFrequencyLevels) :
    ∀ task : Task, task.remainingExecutionTime ≤ 8388608 →
      (levels.foldl (fun tk p => (executeTask tk p t).1) task).remainingExecutionTime
        = task.remainingExecutionTime - levels.length := by
  induction levels with
  | nil =>
    intro task _
    rfl
  | cons p ps ih =>
    intro task hr
    have hstep := executeTask_small task p t hr (hlevels p (List.mem_cons_self _ _))
    simp only [List.foldl_cons, List.length_cons]
    rw [ih (fun q hq => hlevels q (List.mem_cons_of_mem _ hq)) _
      (by rw [hstep]; simp only; omega), hstep]
    simp only
    omega

/-- C25 (as stated, refuted): on stalledTaskSet the instance is released with
remainingExecutionTime = 8388609 = 2 ^ 23 + 1 and run at level 0.4; one call of
executeTask leaves 8388609, not 8388608, and after three ticks of execution the
remaining work is still 8388609: at this level the instance never completes. -/
theorem executeTask_stall_counterexample :
    (selectPhase (initialState stalledTaskSet)).2.map
        (fun t => (t.state, t.remainingExecutionTime))
      = [(TaskState.TASK_RUNNING, 8388609)] ∧
    (selectPhase (initialState stalledTaskSet)).2.map
        (fun t => (executeTask t { frequencyLevel := f04, isDPMActive := false } 0).1.remainingExecutionTime)
      = [8388609] ∧
    (stateAfter 0 stalledTaskSet 3).map (fun s => s.currentPowerState.frequencyLevel)
      = some f04 ∧
    (stateAfter 0 stalledTaskSet 3).map (fun s => s.output.map (fun r => r.task))
      = some [some (1, 8388609, 30000000), some (1, 8388609, 30000000),
          some (1, 8388609, 30000000)] ∧
    (stateAfter 0 stalledTaskSet 3).map
        (fun s => s.taskSet.map (fun t => (t.state, t.remainingExecutionTime)))
      = some [(TaskState.TASK_RUNNING, 8388609)] := by
  refine ⟨by decide, by decide, by decide, by decide, by decide⟩

/-- C25 (amended): for every level of the table (0.4, 0.6, 0.8, 1.0) and every
remaining work r with 1 <= r <= 8388608 = 2 ^ 23, one call of executeTask leaves exactly
r - 1 and changes no other field, and for r = 0 it leaves 0; so any sequence of calls at
levels of the table takes the remaining work from r to 0 in exactly r calls, whatever
the levels. -/
theorem executeTask_whole_tick (task : Task) (ps : PowerState) (t : Nat)
    (levels : List PowerState)
    (hr : task.remainingExecutionTime ≤ 8388608)
    (hps : ps.frequencyLevel ∈ availableFrequencyLevels)
    (hlevels : ∀ p ∈ levels, p.frequencyLevel ∈ availableFrequencyLevels) :
    (executeTask task ps t).1
      = { task with remainingExecutionTime := task.remainingExecutionTime - 1 } ∧
    (executeTask task ps t).2 = addU32 t 1 ∧
    (levels.foldl (fun tk p => (executeTask tk p t).1) task).remainingExecutionTime
      = task.remainingExecutionTime - levels.length :=
  ⟨executeTask_small task ps t hr hps, rfl, executeTask_fold t levels hlevels task hr⟩

/-- C25 witness: the task of scenario S2 with 5 ticks of work: one call at level 0.6
leaves 4, and five calls at the levels 0.6, 0.4, 0.4, 0.4, 0.4 leave 0. -/
theorem executeTask_whole_tick_witness :
    s2Task.remainingExecutionTime = 5 ∧
    (executeTask s2Task { frequencyLevel := f06, isDPMActive := false } 0).1
      = { s2Task with remainingExecutionTime := 5 - 1 } ∧
    (executeTask s2Task { frequencyLevel := f06, isDPMActive := false } 0).2 = addU32 0 1 ∧
    (([f06, f04, f04, f04, f04].map (fun f => ({ frequencyLevel := f, isDPMActive := false } : PowerState))).foldl
        (fun tk p => (executeTask tk p 0).1) s2Task).remainingExecutionTime = 5 - 5 :=
  ⟨by decide,
    executeTask_whole_tick s2Task { frequencyLevel := f06, isDPMActive := false } 0
      ([f06, f04, f04, f04, f04].map
        (fun f => ({ frequencyLevel := f, isDPMActive := false } : PowerState)))
      (by decide) (by decide) (by decide)⟩


/-! ## Remaining work and the actual execution time -/

theorem roundHalfEven_le_of_le (x d k : Nat) (hd : 0 < d) (h : x ≤ k * d) :
    roundHalfEven x d ≤ k := by
  rcases Nat.lt_or_ge (x / d) k with hlt | hge
  · have := (roundHalfEven_bounds x d).2
    omega
  · have h1 : x / d ≤ k := Nat.div_le_of_le_mul (by rw [Nat.mul_comm]; exact h)
    have h2 : k * d ≤ x := by
      have := Nat.div_mul_le_self x d
      have h3 : k * d ≤ x / d * d := Nat.mul_le_mul_right _ hge
      omega
    have h3 : x = k * d := by omega
    rw [h3, roundHalfEven_mul k d hd]

theorem roundF32_le_of_le (x m e : Nat) (hm : m < 2 ^ 24) (hx : x ≤ m * 2 ^ e) :
    roundF32 x 1 ≤ m * 2 ^ e := by
  obtain ⟨s, hround, hs⟩ := roundF32_shift x 1
  rw [hround]
  simp only [Nat.div_one, one_mul] at hs ⊢
  have hse : s ≤ e := by
    rcases hs with ⟨h0, _⟩ | ⟨h1, _⟩
    · omega
    · by_contra hgt
      have h2 : m * 2 ^ e < 2 ^ 24 * 2 ^ e := Nat.mul_lt_mul_of_pos_right hm (by positivity)
      have h3 : 2 ^ 24 * 2 ^ e = 2 ^ (24 + e) := by rw [pow_add]
      have h4 : 2 ^ (24 + e) ≤ 2 ^ (23 + s) := Nat.pow_le_pow_right (by norm_num) (by omega)
      omega
  obtain ⟨k, hk⟩ : ∃ k, e = k + s := ⟨e - s, by omega⟩
  have hpow : 2 ^ e = 2 ^ k * 2 ^ s := by rw [hk, pow_add]
  have hle : roundHalfEven x (2 ^ s) ≤ m * 2 ^ k :=
    roundHalfEven_le_of_le x (2 ^ s) (m * 2 ^ k) (by positivity)
      (by rw [Nat.mul_assoc, ← hpow]; exact hx)
  calc roundHalfEven x (2 ^ s) * 2 ^ s ≤ m * 2 ^ k * 2 ^ s := Nat.mul_le_mul_right _ hle
    _ = m * 2 ^ e := by rw [Nat.mul_assoc, ← hpow]

theorem ofU32_le (r : Nat) (hr : r ≤ 16777218) :
    ∃ m e, m < 2 ^ 24 ∧ ofU32 r = m * 2 ^ e ∧ m * 2 ^ e ≤ r * 2 ^ 149 := by
  rcases Nat.lt_or_ge r 16777216 with hlt | hge
  · exact ⟨r, 149, by norm_num; exact hlt, ofU32_exact r hlt, le_refl _⟩
  · have h3 : r = 16777216 ∨ r = 16777217 ∨ r = 16777218 := by omega
    rcases h3 with h | h | h
    · subst h
      exact ⟨8388608, 150, by norm_num, by decide, by decide⟩
    · subst h
      exact ⟨8388608, 150, by norm_num, by decide, by decide⟩
    · subst h
      exact ⟨8388609, 150, by norm_num, by decide, by decide⟩

theorem executeTask_le (task : Task) (ps : PowerState) (t : Nat)
    (hr : task.remainingExecutionTime ≤ 16777218) :
    (executeTask task ps t).1.remainingExecutionTime ≤ task.remainingExecutionTime := by
  obtain ⟨m, e, hm, hof, hle⟩ := ofU32_le task.remainingExecutionTime hr
  unfold executeTask
  simp only
  split_ifs with hp
  · simp only [toU32, fsub, hof]
    have h1 : roundF32 (m * 2 ^ e - ps.frequencyLevel) 1 ≤ m * 2 ^ e :=
      roundF32_le_of_le _ m e hm (Nat.sub_le _ _)
    have h2 : roundF32 (m * 2 ^ e - ps.frequencyLevel) 1 / 2 ^ 149
        ≤ task.remainingExecutionTime :=
      Nat.div_le_of_le_mul (by rw [Nat.mul_comm (2 ^ 149)]; exact le_trans h1 hle)
    exact le_trans (Nat.mod_le _ _) h2
  · exact Nat.zero_le _

theorem executeTask_self (y : Task) (ps : PowerState) (t : Nat) :
    (executeTask y ps t).1 =
      { y with remainingExecutionTime := (executeTask y ps t).1.remainingExecutionTime } := by
  obtain ⟨r, h⟩ := executeTask_eq y ps t
  rw [h]

theorem completeTask_table (t : Nat) (y : Task) :
    (completeTask t y).actualExecutionTime = y.actualExecutionTime := by
  unfold completeTask
  split_ifs <;> rfl

theorem arriveTask_work (t : Nat) (y : Task)
    (h : (∀ k, y.actualExecutionTime.getD k 0 ≤ 16777218) ∧
      (y.state ≠ TaskState.TASK_IDLE → y.remainingExecutionTime ≤ y.currentActual)) :
    (∀ k, (arriveTask t y).actualExecutionTime.getD k 0 ≤ 16777218) ∧
    ((arriveTask t y).state ≠ TaskState.TASK_IDLE →
      (arriveTask t y).remainingExecutionTime ≤ (arriveTask t y).currentActual) := by
  by_cases hc : y.nextArrivalTime ≤ t ∧ y.state = TaskState.TASK_IDLE
  · rw [arriveTask_release t y hc]
    exact ⟨h.1, fun _ => le_refl _⟩
  · rw [arriveTask_skip t y hc]
    exact h

theorem markRunning_work (y : Task) (hact : y.isActive = true)
    (h : (∀ k, y.actualExecutionTime.getD k 0 ≤ 16777218) ∧
      (y.state ≠ TaskState.TASK_IDLE → y.remainingExecutionTime ≤ y.currentActual)) :
    (∀ k, (markRunning y).actualExecutionTime.getD k 0 ≤ 16777218) ∧
    ((markRunning y).state ≠ TaskState.TASK_IDLE →
      (markRunning y).remainingExecutionTime ≤ (markRunning y).currentActual) := by
  rw [markRunning_eq y hact]
  exact ⟨h.1, fun _ => h.2 ((isActive_iff y).1 hact)⟩

theorem completeTask_work (t : Nat) (y : Task)
    (h : (∀ k, y.actualExecutionTime.getD k 0 ≤ 16777218) ∧
      (y.state ≠ TaskState.TASK_IDLE → y.remainingExecutionTime ≤ y.currentActual)) :
    (∀ k, (completeTask t y).actualExecutionTime.getD k 0 ≤ 16777218) ∧
    ((completeTask t y).state ≠ TaskState.TASK_IDLE →
      (completeTask t y).remainingExecutionTime ≤ (completeTask t y).currentActual) := by
  refine ⟨by rw [completeTask_table]; exact h.1, ?_⟩
  by_cases hc : y.state = TaskState.TASK_RUNNING ∧ y.remainingExecutionTime ≤ 0
  · rw [(completeTask_done t y hc).1]
    exact fun hne => absurd rfl hne
  · rw [completeTask_keeps t y hc]
    exact h.2

theorem currentActual_le (y : Task) (h : ∀ k, y.actualExecutionTime.getD k 0 ≤ 16777218) :
    y.currentActual ≤ 16777218 :=
  h _

theorem executeTask_work (y : Task) (ps : PowerState) (t : Nat)
    (hrun : y.state = TaskState.TASK_RUNNING)
    (h : (∀ k, y.actualExecutionTime.getD k 0 ≤ 16777218) ∧
      (y.state ≠ TaskState.TASK_IDLE → y.remainingExecutionTime ≤ y.currentActual)) :
    (∀ k, (executeTask y ps t).1.actualExecutionTime.getD k 0 ≤ 16777218) ∧
    ((executeTask y ps t).1.state ≠ TaskState.TASK_IDLE →
      (executeTask y ps t).1.remainingExecutionTime ≤ (executeTask y ps t).1.currentActual) := by
  have hr : y.remainingExecutionTime ≤ y.currentActual := h.2 (by rw [hrun]; decide)
  have hle := executeTask_le y ps t (le_trans hr (currentActual_le y h.1))
  rw [executeTask_self y ps t]
  exact ⟨h.1, fun _ => le_trans hle hr⟩

theorem schedulerTick_work (indeterminate : CFloat) (s : SimState)
    (h : ∀ y ∈ s.taskSet, (∀ k, y.actualExecutionTime.getD k 0 ≤ 16777218) ∧
      (y.state ≠ TaskState.TASK_IDLE → y.remainingExecutionTime ≤ y.currentActual)) :
    ∀ x ∈ (schedulerTick indeterminate s).taskSet,
      (∀ k, x.actualExecutionTime.getD k 0 ≤ 16777218) ∧
      (x.state ≠ TaskState.TASK_IDLE → x.remainingExecutionTime ≤ x.currentActual) := by
  intro x hx
  obtain ⟨y, hy, hcase | ⟨hact, ps, hcase⟩⟩ := schedulerTick_task_cases indeterminate s x hx
  · rw [hcase]
    exact completeTask_work _ _ (arriveTask_work s.currentTime y (h y hy))
  · rw [hcase]
    apply completeTask_work
    apply executeTask_work
    · rw [markRunning_eq _ hact]
    · exact markRunning_work _ hact (arriveTask_work s.currentTime y (h y hy))

theorem arriveTask_instance (t : Nat) (y : Task) :
    (arriveTask t y).currentInstance = y.currentInstance ∧
    (arriveTask t y).instancesCompleted = y.instancesCompleted := by
  unfold arriveTask
  split_ifs <;> exact ⟨rfl, rfl⟩

theorem markRunning_instance (y : Task) :
    (markRunning y).currentInstance = y.currentInstance ∧
    (markRunning y).instancesCompleted = y.instancesCompleted := by
  unfold markRunning
  split_ifs <;> exact ⟨rfl, rfl⟩

theorem executeTask_instance (y : Task) (ps : PowerState) (t : Nat) :
    (executeTask y ps t).1.currentInstance = y.currentInstance ∧
    (executeTask y ps t).1.instancesCompleted = y.instancesCompleted := by
  obtain ⟨r, h⟩ := executeTask_eq y ps t
  rw [h]
  exact ⟨rfl, rfl⟩

theorem completeTask_instance (t : Nat) (y : Task) :
    ((completeTask t y).currentInstance = y.currentInstance ∧
      (completeTask t y).instancesCompleted = y.instancesCompleted) ∨
    ((completeTask t y).state = TaskState.TASK_IDLE ∧
      (completeTask t y).instancesCompleted = addU32 y.instancesCompleted 1 ∧
      (completeTask t y).currentInstance
        = (if MAX_INSTANCES ≤ y.currentInstance + 1 then 0 else y.currentInstance + 1)) := by
  unfold completeTask
  by_cases hc : y.state = TaskState.TASK_RUNNING ∧ y.remainingExecutionTime ≤ 0
  · right
    rw [if_pos hc]
    exact ⟨rfl, rfl, rfl⟩
  · left
    rw [if_neg hc]
    exact ⟨rfl, rfl⟩

theorem schedulerTick_instance (indeterminate : CFloat) (s : SimState) (x : Task)
    (h : x ∈ (schedulerTick indeterminate s).taskSet) :
    ∃ y ∈ s.taskSet,
      (x.currentInstance = y.currentInstance ∧ x.instancesCompleted = y.instancesCompleted) ∨
      (x.state = TaskState.TASK_IDLE ∧
        x.instancesCompleted = addU32 y.instancesCompleted 1 ∧
        x.currentInstance
          = (if MAX_INSTANCES ≤ y.currentInstance + 1 then 0 else y.currentInstance + 1)) := by
  obtain ⟨y, hy, hcase | ⟨_, ps, hcase⟩⟩ := schedulerTick_task_cases indeterminate s x h
  · refine ⟨y, hy, ?_⟩
    obtain ⟨a1, a2⟩ := arriveTask_instance s.currentTime y
    rw [hcase, ← a1, ← a2]
    exact completeTask_instance _ _
  · refine ⟨y, hy, ?_⟩
    obtain ⟨a1, a2⟩ := arriveTask_instance s.currentTime y
    obtain ⟨m1, m2⟩ := markRunning_instance (arriveTask s.currentTime y)
    obtain ⟨e1, e2⟩ :=
      executeTask_instance (markRunning (arriveTask s.currentTime y)) ps s.currentTime
    rw [hcase, ← a1, ← a2, ← m1, ← m2, ← e1, ← e2]
    exact completeTask_instance _ _

/-- C24 (as stated, refuted): on hugeTaskSet the release at time 0 sets
remainingExecutionTime to the actual execution time 16777219 = 2 ^ 24 + 3; the first
tick of execution, at level 1.0, leaves 16777220, above the actual execution time of
the instance, and the following ticks leave it there. -/
theorem executeTask_increases_work :
    (checkForTaskArrivals hugeTaskSet 0).map
        (fun t => (t.state, t.currentActual, t.remainingExecutionTime))
      = [(TaskState.TASK_READY, 16777219, 16777219)] ∧
    (stateAfter 0 hugeTaskSet 1).map (fun s => s.currentPowerState.frequencyLevel)
      = some floatOne ∧
    (stateAfter 0 hugeTaskSet 1).map
        (fun s => s.taskSet.map (fun t => (t.state, t.currentActual, t.remainingExecutionTime)))
      = some [(TaskState.TASK_RUNNING, 16777219, 16777220)] ∧
    (stateAfter 0 hugeTaskSet 3).map
        (fun s => s.taskSet.map (fun t => (t.state, t.currentActual, t.remainingExecutionTime)))
      = some [(TaskState.TASK_RUNNING, 16777219, 16777220)] ∧
    (stateAfter 0 hugeTaskSet 3).map (fun s => s.output.map (fun r => r.task))
      = some [some (1, 16777219, 20000000), some (1, 16777220, 20000000),
          some (1, 16777220, 20000000)] := by
  refine ⟨by decide, by decide, by decide, by decide, by decide⟩

/-- C24 (amended): in every run from the initial state (all tasks IDLE) of a task set
whose actual execution times are all at most 16777218 = 2 ^ 24 + 2, every READY or
RUNNING task has remainingExecutionTime <= actualExecutionTime[currentInstance] at the
start of every tick, after the release phase and after the select phase; executeTask
leaves a remaining time not above the one it found and changes neither the state nor
currentInstance; a release sets remainingExecutionTime to
actualExecutionTime[currentInstance] and keeps currentInstance; and over a whole tick
currentInstance changes only for a task completed in that tick (state IDLE,
instancesCompleted increased by one). -/
theorem remaining_work_bounded (indeterminate : CFloat) (taskSet : TaskSet) (n : Nat)
    (s : SimState)
    (hinit : ∀ task ∈ taskSet, task.state = TaskState.TASK_IDLE)
    (htable : ∀ task ∈ taskSet, ∀ k, task.actualExecutionTime.getD k 0 ≤ 16777218)
    (hs : stateAfter indeterminate taskSet n = some s) :
    (∀ task, (task ∈ s.taskSet ∨ task ∈ checkForTaskArrivals s.taskSet s.currentTime ∨
        task ∈ (selectPhase s).2) → task.state ≠ TaskState.TASK_IDLE →
      task.remainingExecutionTime ≤ task.currentActual ∧
      ∀ ps, (executeTask task ps s.currentTime).1.remainingExecutionTime
          ≤ task.remainingExecutionTime ∧
        (executeTask task ps s.currentTime).1.state = task.state ∧
        (executeTask task ps s.currentTime).1.currentInstance = task.currentInstance) ∧
    (∀ task ∈ s.taskSet, task.state = TaskState.TASK_IDLE →
      task.nextArrivalTime ≤ s.currentTime →
      (arriveTask s.currentTime task).state = TaskState.TASK_READY ∧
      (arriveTask s.currentTime task).remainingExecutionTime = task.currentActual ∧
      (arriveTask s.currentTime task).currentInstance = task.currentInstance) ∧
    (∀ x ∈ (schedulerTick indeterminate s).taskSet, ∃ y ∈ s.taskSet,
      (x.currentInstance = y.currentInstance ∧
        x.instancesCompleted = y.instancesCompleted) ∨
      (x.state = TaskState.TASK_IDLE ∧
        x.instancesCompleted = addU32 y.instancesCompleted 1 ∧
        x.currentInstance
          = (if MAX_INSTANCES ≤ y.currentInstance + 1 then 0 else y.currentInstance + 1))) := by
  have hinv : ∀ y ∈ s.taskSet, (∀ k, y.actualExecutionTime.getD k 0 ≤ 16777218) ∧
      (y.state ≠ TaskState.TASK_IDLE → y.remainingExecutionTime ≤ y.currentActual) := by
    refine stateAfter_invariant
      (fun s => ∀ y ∈ s.taskSet, (∀ k, y.actualExecutionTime.getD k 0 ≤ 16777218) ∧
        (y.state ≠ TaskState.TASK_IDLE → y.remainingExecutionTime ≤ y.currentActual))
      indeterminate taskSet ?_ ?_ n s hs
    · intro y hy
      exact ⟨htable y hy, fun hne => absurd (hinit y hy) hne⟩
    · intro s0 h0 _
      exact schedulerTick_work indeterminate s0 h0
  have hall : ∀ task, (task ∈ s.taskSet ∨
        task ∈ checkForTaskArrivals s.taskSet s.currentTime ∨ task ∈ (selectPhase s).2) →
      (∀ k, task.actualExecutionTime.getD k 0 ≤ 16777218) ∧
      (task.state ≠ TaskState.TASK_IDLE →
        task.remainingExecutionTime ≤ task.currentActual) := by
    intro task ht
    rcases ht with ht | ht | ht
    · exact hinv task ht
    · simp only [checkForTaskArrivals, List.mem_map] at ht
      obtain ⟨y, hy, rfl⟩ := ht
      exact arriveTask_work s.currentTime y (hinv y hy)
    · obtain ⟨y, hy, h1 | ⟨h1, hact, _⟩⟩ := selectPhase_mem s task ht
      · rw [h1]
        exact arriveTask_work s.currentTime y (hinv y hy)
      · rw [h1]
        exact markRunning_work _ hact (arriveTask_work s.currentTime y (hinv y hy))
  refine ⟨?_, ?_, schedulerTick_instance indeterminate s⟩
  · intro task ht hne
    obtain ⟨h1, h2⟩ := hall task ht
    refine ⟨h2 hne, fun ps => ⟨?_, ?_, ?_⟩⟩
    · exact executeTask_le task ps s.currentTime (le_trans (h2 hne) (currentActual_le task h1))
    · rw [executeTask_self task ps s.currentTime]
    · rw [executeTask_self task ps s.currentTime]
  · intro task _ hidle hnext
    rw [arriveTask_release s.currentTime task ⟨hnext, hidle⟩]
    exact ⟨rfl, rfl, rfl⟩

/-- C24 witness: preemptTaskSet after its first tick, with task 1 READY (5 of 5 ticks
left) and task 2 RUNNING (1 of 2 ticks left). -/
theorem remaining_work_bounded_witness :
    stateAfter 0 preemptTaskSet 1 = some preemptState1 ∧
    preemptState1.taskSet.map (fun t => (t.state, t.remainingExecutionTime, t.currentActual))
      = [(TaskState.TASK_READY, 5, 5), (TaskState.TASK_RUNNING, 1, 2)] ∧
    ∀ task, (task ∈ preemptState1.taskSet ∨
        task ∈ checkForTaskArrivals preemptState1.taskSet preemptState1.currentTime ∨
        task ∈ (selectPhase preemptState1).2) → task.state ≠ TaskState.TASK_IDLE →
      task.remainingExecutionTime ≤ task.currentActual ∧
      ∀ ps, (executeTask task ps preemptState1.currentTime).1.remainingExecutionTime
          ≤ task.remainingExecutionTime ∧
        (executeTask task ps preemptState1.currentTime).1.state = task.state ∧
        (executeTask task ps preemptState1.currentTime).1.currentInstance
          = task.currentInstance :=
  ⟨by decide, by decide,
    (remaining_work_bounded 0 preemptTaskSet 1 preemptState1 (by decide)
      (by
        intro task ht k
        simp only [preemptTaskSet, List.mem_cons, List.mem_singleton, List.mem_nil_iff,
          or_false] at ht
        rcases ht with rfl | rfl
        · simp only [loadedTask, List.getD_eq_getElem?_getD, List.getElem?_replicate]
          split_ifs <;> simp
        · simp only [loadedTask, List.getD_eq_getElem?_getD, List.getElem?_replicate]
          split_ifs <;> simp)
      (by decide)).1⟩

end RTS
